import Mathlib

/-!
Verification of the Granular Access Control Engine
(`src/app/server/lib/GranularAccess.ts`), shallowly embedded in Lean 4.

The embedding mirrors the TypeScript source.  Helpers imported from
`app/common/*` and `app/server/lib/RowAccess.ts` / `DocSession.ts` are not
part of the sources provided; those are modelled from the specification and
carry a doc comment starting with "Modelled from the spec:".
-/

namespace Grist

/-! ## Permission lattice -/

/-- Modelled from the spec: the permission lattice values of
`app/common/ACLPermissions` (not under src/).  §3: `{unset, allow, deny,
allowSome, denySome, mixed}`; a TablePermissionSet additionally admits
`mixedColumns` on the read bit. `unset` renders the empty string. -/
inductive PermValue where
  | allow
  | deny
  | allowSome
  | denySome
  | mixed
  | unset
  | mixedColumns
deriving DecidableEq, Repr

/-- Modelled from the spec: a PermissionSet (§3) is "a tuple of six
independent bits — read, update, create, delete, schemaEdit, and a sixth
reserved bit", each a lattice value.  PartialPermissionSet,
MixedPermissionSet and TablePermissionSet share this shape with
progressively restricted value ranges. -/
structure PermissionSet where
  read : PermValue
  update : PermValue
  create : PermValue
  delete : PermValue
  schemaEdit : PermValue
  reserved : PermValue
deriving DecidableEq, Repr

/-- Modelled from the spec: `emptyPermissionSet` of app/common/ACLPermissions
(not under src/), §4.1 "empty() — identity PartialPermissionSet". -/
def emptyPermissionSet : PermissionSet :=
  ⟨.unset, .unset, .unset, .unset, .unset, .unset⟩

/-- Modelled from the spec: per-bit merge of app/common/ACLPermissions (not
under src/).  §4.1: a final (`allow`/`deny`) first operand wins; an `unset`
operand is the identity; "allowSome beats unset, etc.".  Reconciled with
scenario (f) of §8: a partial value (`allowSome`/`denySome`) followed by a
concrete value of the same polarity resolves to that value, and any other
conflict is `mixed` (which `toMixed` reports as `mixed`). -/
def mergePartialPermissionValues (a b : PermValue) : PermValue :=
  if a = .unset then b
  else if a = .allow ∨ a = .deny ∨ a = .mixed then a
  else if b = .unset then a
  else if a = .allowSome ∧ b = .allow then .allow
  else if a = .denySome ∧ b = .deny then .deny
  else .mixed

/-- Modelled from the spec: `mergePartialPermissions` of
app/common/ACLPermissions (not under src/), applied bit by bit.  Earlier
operands dominate (§4.1), which is how rule order implements
first-match-wins. -/
def mergePartialPermissions (a b : PermissionSet) : PermissionSet where
  read := mergePartialPermissionValues a.read b.read
  update := mergePartialPermissionValues a.update b.update
  create := mergePartialPermissionValues a.create b.create
  delete := mergePartialPermissionValues a.delete b.delete
  schemaEdit := mergePartialPermissionValues a.schemaEdit b.schemaEdit
  reserved := mergePartialPermissionValues a.reserved b.reserved

/-- Modelled from the spec: `mergePermissions(psets, fn)` of
app/common/ACLPermissions (not under src/), §4.1 `foldTable`: combines a
list of permission sets by applying the bit-fold to the list of values of
each permission bit. -/
def mergePermissions (psets : List PermissionSet) (fn : List PermValue → PermValue) :
    PermissionSet where
  read := fn (psets.map (·.read))
  update := fn (psets.map (·.update))
  create := fn (psets.map (·.create))
  delete := fn (psets.map (·.delete))
  schemaEdit := fn (psets.map (·.schemaEdit))
  reserved := fn (psets.map (·.reserved))

/-- Modelled from the spec: the per-bit downgrade of `toMixed` in
app/common/ACLPermissions (not under src/), §4.1: "collapse leftover
allowSome → allow, denySome → deny, unresolved conflict → mixed", producing
a MixedPermissionSet over `{allow, deny, mixed}` (an `unset` bit, which can
only remain when no default was merged, collapses to deny). -/
def toMixedValue : PermValue → PermValue
  | .allow => .allow
  | .allowSome => .allow
  | .deny => .deny
  | .denySome => .deny
  | .unset => .deny
  | _ => .mixed

/-- Modelled from the spec: `toMixed` of app/common/ACLPermissions (not
under src/), §4.1, applied bit by bit. -/
def toMixed (p : PermissionSet) : PermissionSet where
  read := toMixedValue p.read
  update := toMixedValue p.update
  create := toMixedValue p.create
  delete := toMixedValue p.delete
  schemaEdit := toMixedValue p.schemaEdit
  reserved := toMixedValue p.reserved

/-- Modelled from the spec: the per-bit weakening used by
`makePartialPermissions` of app/common/ACLPermissions (not under src/),
§4.4: "merge a weakened delta where all allow/deny bits downgrade to
allowSome/denySome". -/
def makePartialPermissionValue : PermValue → PermValue
  | .allow => .allowSome
  | .deny => .denySome
  | v => v

/-- Modelled from the spec: `makePartialPermissions` of
app/common/ACLPermissions (not under src/), applied bit by bit. -/
def makePartialPermissions (p : PermissionSet) : PermissionSet where
  read := makePartialPermissionValue p.read
  update := makePartialPermissionValue p.update
  create := makePartialPermissionValue p.create
  delete := makePartialPermissionValue p.delete
  schemaEdit := makePartialPermissionValue p.schemaEdit
  reserved := makePartialPermissionValue p.reserved

/-- A permission set with the same value on all six bits. -/
def uniformPermissionSet (v : PermValue) : PermissionSet := ⟨v, v, v, v, v, v⟩

/-- Modelled from the spec: `parsePermissions` of app/common/ACLPermissions
(not under src/).  "all" grants every bit, "none" denies every bit, and
"+R" allows read only (§3 built-in defaults: owners and editors get all
permissions, viewers get read-only). -/
def parsePermissions : String → PermissionSet
  | "all" => uniformPermissionSet .allow
  | "none" => uniformPermissionSet .deny
  | "+R" => { emptyPermissionSet with read := .allow }
  | _ => emptyPermissionSet

/-! ## Cell values, table data and document actions -/

/-- Modelled from the spec: `CellValue` of app/common/DocActions (not under
src/): a JSON-like scalar stored in a cell (list-valued cells are opaque to
the engine and are not modelled). -/
inductive CellValue where
  | null
  | b (v : Bool)
  | n (v : Int)
  | s (v : String)
deriving DecidableEq, Repr

/-- A single-record column-value map (`ColValues`): colId → value. -/
abbrev ColValues := List (String × CellValue)

/-- A bulk column-value map (`BulkColValues`): colId → one value per row. -/
abbrev BulkColValues := List (String × List CellValue)

/-- Modelled from the spec: `TableDataAction` of app/common/DocActions (not
under src/): `['TableData', tableId, rowIds, colValues]`. -/
structure TableDataAction where
  tableId : String
  rowIds : List Nat
  colValues : BulkColValues
deriving DecidableEq, Repr

/-- Modelled from the spec: `DocAction` of app/common/DocActions (not under
src/).  Record-shaped mutations (add/update/remove, singular or bulk, plus
ReplaceTableData and TableData) and schema-shaped mutations (glossary:
"DocAction"). -/
inductive DocAction where
  | AddRecord (tableId : String) (rowId : Nat) (colValues : ColValues)
  | BulkAddRecord (tableId : String) (rowIds : List Nat) (colValues : BulkColValues)
  | UpdateRecord (tableId : String) (rowId : Nat) (colValues : ColValues)
  | BulkUpdateRecord (tableId : String) (rowIds : List Nat) (colValues : BulkColValues)
  | RemoveRecord (tableId : String) (rowId : Nat)
  | BulkRemoveRecord (tableId : String) (rowIds : List Nat)
  | ReplaceTableData (tableId : String) (rowIds : List Nat) (colValues : BulkColValues)
  | TableData (tableId : String) (rowIds : List Nat) (colValues : BulkColValues)
  | AddColumn (tableId : String) (colId : String) (colInfo : ColValues)
  | RemoveColumn (tableId : String) (colId : String)
  | RenameColumn (tableId : String) (colId : String) (newColId : String)
  | ModifyColumn (tableId : String) (colId : String) (colInfo : ColValues)
  | AddTable (tableId : String) (columns : List ColValues)
  | RemoveTable (tableId : String)
  | RenameTable (tableId : String) (newTableId : String)
deriving DecidableEq, Repr

/-- Modelled from the spec: `getTableId` of app/common/DocActions (not under
src/): every DocAction stores its target tableId at position 1. -/
def getTableId : DocAction → String
  | .AddRecord t _ _ => t
  | .BulkAddRecord t _ _ => t
  | .UpdateRecord t _ _ => t
  | .BulkUpdateRecord t _ _ => t
  | .RemoveRecord t _ => t
  | .BulkRemoveRecord t _ => t
  | .ReplaceTableData t _ _ => t
  | .TableData t _ _ => t
  | .AddColumn t _ _ => t
  | .RemoveColumn t _ => t
  | .RenameColumn t _ _ => t
  | .ModifyColumn t _ _ => t
  | .AddTable t _ => t
  | .RemoveTable t => t
  | .RenameTable t _ => t

/-- Modelled from the spec: `isSchemaAction` of app/common/DocActions (not
under src/): true for the schema-shaped mutations (glossary: "DocAction ...
schema-shape (add/rename/remove table/column)", plus ModifyColumn). -/
def isSchemaAction : DocAction → Bool
  | .AddColumn _ _ _ => true
  | .RemoveColumn _ _ => true
  | .RenameColumn _ _ _ => true
  | .ModifyColumn _ _ _ => true
  | .AddTable _ _ => true
  | .RemoveTable _ => true
  | .RenameTable _ _ => true
  | _ => false

/-- Modelled from the spec: `getRowIdsFromDocAction` of
app/server/lib/RowAccess.ts (not under src/): "determine the set of rows
referenced by `a`" (§4.6) — the row id(s) carried by a record-shaped
mutation, nothing for schema-shaped ones. -/
def getRowIdsFromDocAction : DocAction → List Nat
  | .AddRecord _ r _ => [r]
  | .BulkAddRecord _ rs _ => rs
  | .UpdateRecord _ r _ => [r]
  | .BulkUpdateRecord _ rs _ => rs
  | .RemoveRecord _ r => [r]
  | .BulkRemoveRecord _ rs => rs
  | .ReplaceTableData _ rs _ => rs
  | .TableData _ rs _ => rs
  | _ => []

/-- View `TableDataAction` as the corresponding `DocAction`. -/
def TableDataAction.toDocAction (t : TableDataAction) : DocAction :=
  .TableData t.tableId t.rowIds t.colValues

/-! ## Rules, rule sets, sessions and users -/

/-- `RecordView` (GranularAccess.ts): a row-like cursor over a columnar
`TableDataAction`. -/
structure RecordView where
  data : TableDataAction
  index : Nat
deriving Repr

/-- `RecordView.get`: the `id` pseudo-column reads the row id, any other
column reads the cell at the cursor index (out of range reads null, like a
JS out-of-bounds index). -/
def RecordView.get (r : RecordView) (colId : String) : CellValue :=
  if colId = "id" then
    match r.data.rowIds.get? r.index with
    | some v => .n v
    | none => .null
  else
    match List.lookup colId r.data.colValues with
    | some vals =>
      match vals.get? r.index with
      | some v => v
      | none => .null
    | none => .null

/-- The value bound to a user attribute: a row of a characteristic table, or
the empty record view (`EmptyRecordView`) when the lookup found nothing. -/
inductive InfoViewVal where
  | emptyRec
  | recView (r : RecordView)
deriving Repr

/-- `UserInfo` (app/common/GranularAccessClause, shape fixed by `_getUser`):
built-in fields plus attributes contributed by user-attribute rules. -/
structure UserInfo where
  Access : String
  UserID : Option Int
  Email : Option String
  Name : Option String
  attrs : List (String × InfoViewVal)
deriving Repr

/-- `AclMatchInput` (app/common/GranularAccessClause): a user and an
optional record (the source's `rec` field; `rec` is reserved in Lean). -/
structure AclMatchInput where
  user : UserInfo
  record : Option RecordView := none

/-- The distinguished errors a compiled match predicate can raise:
`NEED_ROW_DATA` (the *needs-row* signal) or any other error. -/
inductive AclError where
  | needRowData
  | other (msg : String)
deriving DecidableEq, Repr

/-- A compiled ACL rule: source formula, compiled match predicate,
permission delta (§3 "Rule"). -/
structure Rule where
  aclFormula : String
  matchFunc : AclMatchInput → Except AclError Bool
  permissions : PermissionSet
  permissionsText : String

/-- A rule set: scope `(tableId, colIds)`, ordered body, default
permissions (§3 "RuleSet").  `colIds = none` renders the `'*'` scope. -/
structure RuleSet where
  tableId : String
  colIds : Option (List String)
  body : List Rule
  defaultPermissions : PermissionSet

/-- `DEFAULT_RULE_SET` (GranularAccess.ts): the hard-coded default rule set
appended to any user-created default rule: owners and editors get all
permissions, viewers get read-only, default none. -/
def DEFAULT_RULE_SET : RuleSet where
  tableId := "*"
  colIds := none
  body :=
    [{ aclFormula := "user.Role in ['editors', 'owners']"
       matchFunc := fun input => .ok (["editors", "owners"].contains input.user.Access)
       permissions := parsePermissions "all"
       permissionsText := "all" },
     { aclFormula := "user.Role in ['viewers']"
       matchFunc := fun input => .ok (["viewers"].contains input.user.Access)
       permissions := parsePermissions "+R"
       permissionsText := "none" }]
  defaultPermissions := parsePermissions "none"

/-- `UserAttributeRule` (app/common/GranularAccessClause): (name,
source-table, source-column, lookup-path) (§3). -/
structure UserAttributeRule where
  name : String
  tableId : String
  lookupColId : String
  charId : String
deriving DecidableEq, Repr

/-- `CharacteristicTable` (GranularAccess.ts): a loaded copy of a source
table plus a map from normalized key to row index. -/
structure CharacteristicTable where
  tableId : String
  colId : String
  rowNums : List (String × Nat)
  data : TableDataAction
deriving DecidableEq, Repr

/-- Modelled from the spec: the session shape of
app/server/lib/DocSession.ts (not under src/), §6: `sessionAccess(session)`
is one of owners/editors/viewers/none and `sessionUser(session)` is an
optional `{id, email, name}`. -/
structure FullUser where
  id : Int
  email : String
  name : String
deriving DecidableEq, Repr

/-- Modelled from the spec: `OptDocSession` of app/server/lib/DocSession.ts
(not under src/). -/
structure OptDocSession where
  access : String
  user : Option FullUser
deriving DecidableEq, Repr

/-- Modelled from the spec: `getDocSessionAccess` (not under src/). -/
def getDocSessionAccess (s : OptDocSession) : String := s.access

/-- Modelled from the spec: `getDocSessionUser` (not under src/). -/
def getDocSessionUser (s : OptDocSession) : Option FullUser := s.user

/-- Modelled from the spec: `canView` of app/common/roles (not under src/):
any of the three roles owners/editors/viewers can view. -/
def canView (access : String) : Bool :=
  ["owners", "editors", "viewers"].contains access

/-! ## Engine state -/

/-- A minimal JSON stringification of a cell value, used by
`_normalizeValue`. -/
def jsonOfCellValue : CellValue → String
  | .null => "null"
  | .b true => "true"
  | .b false => "false"
  | .n v => toString v
  | .s v => "\"" ++ v ++ "\""

/-- The state of a `GranularAccess` instance: its rule indexes and caches.
`docData` is the query interface the instance was constructed over.  The
per-session `PermissionInfo` cache is semantically transparent (pure
re-evaluation) and has no counterpart here. -/
structure GAState where
  haveRules : Bool
  columnRuleSets : List (String × List RuleSet)
  tableColumnMap : List (String × RuleSet)
  tableRuleSets : List (String × RuleSet)
  defaultRuleSet : RuleSet
  tableIds : List String
  userAttributeRules : List (String × UserAttributeRule)
  characteristicTables : List (String × CharacteristicTable)
  docData : List (String × TableDataAction)

/-- The field initializers of the `GranularAccess` class. -/
def initialState (docData : List (String × TableDataAction)) : GAState where
  haveRules := false
  columnRuleSets := []
  tableColumnMap := []
  tableRuleSets := []
  defaultRuleSet := DEFAULT_RULE_SET
  tableIds := []
  userAttributeRules := []
  characteristicTables := []
  docData := docData

/-- `getColumnRuleSet`: the rule set for "tableId:colId", if any. -/
def getColumnRuleSet (st : GAState) (tableId colId : String) : Option RuleSet :=
  List.lookup (tableId ++ ":" ++ colId) st.tableColumnMap

/-- `getAllColumnRuleSets`: all column-scoped rule sets of a table. -/
def getAllColumnRuleSets (st : GAState) (tableId : String) : List RuleSet :=
  (List.lookup tableId st.columnRuleSets).getD []

/-- `getTableDefaultRuleSet`: the rule set for "tableId:*", if any. -/
def getTableDefaultRuleSet (st : GAState) (tableId : String) : Option RuleSet :=
  List.lookup tableId st.tableRuleSets

/-- `getDocDefaultRuleSet`: the rule set for "*:*". -/
def getDocDefaultRuleSet (st : GAState) : RuleSet := st.defaultRuleSet

/-- `getAllTableIds`: all tableIds mentioned in rules. -/
def getAllTableIds (st : GAState) : List String := st.tableIds

/-- `_normalizeValue`: lowercased JSON stringification; a record collapses
to its `id` field first. -/
def normalizeValue : CellValue → String :=
  fun v => (jsonOfCellValue v).toLower

/-- The result of a lodash `get` path lookup over the enriched user. -/
inductive UserPathValue where
  | cell (v : CellValue)
  | record (v : InfoViewVal)
  | missing

/-- Path resolution over the user record used by `_getUser` (lodash `get`
with a dotted path such as `office.id`). -/
def userGetPath (user : UserInfo) (path : String) : UserPathValue :=
  match path.splitOn "." with
  | [f] =>
    if f = "Access" then .cell (.s user.Access)
    else if f = "UserID" then .cell (match user.UserID with | some v => .n v | none => .null)
    else if f = "Email" then .cell (match user.Email with | some v => .s v | none => .null)
    else if f = "Name" then .cell (match user.Name with | some v => .s v | none => .null)
    else match List.lookup f user.attrs with
      | some v => .record v
      | none => .missing
  | [f, sub] =>
    (match List.lookup f user.attrs with
     | some (.recView r) => .cell (r.get sub)
     | some .emptyRec => .cell .null
     | none => .missing)
  | _ => .missing

/-- Normalization of a path-lookup result, as `_normalizeValue` applies to
the value returned by lodash `get` (an InfoView collapses to its id). -/
def normalizePathValue : UserPathValue → String
  | .cell v => normalizeValue v
  | .record (.recView r) => normalizeValue (r.get "id")
  | .record .emptyRec => normalizeValue .null
  | .missing => "undefined"

/-- One step of the user-attribute enrichment loop of `_getUser`: a name
colliding with an existing field is dropped; a missing characteristic row
binds the empty record view. -/
def enrichUser (st : GAState) (user : UserInfo) (p : String × UserAttributeRule) :
    UserInfo :=
  let clause := p.2
  if clause.name = "Access" ∨ clause.name = "UserID" ∨ clause.name = "Email" ∨
      clause.name = "Name" ∨ (List.lookup clause.name user.attrs).isSome then
    user
  else
    let value :=
      match List.lookup clause.name st.characteristicTables with
      | none => InfoViewVal.emptyRec
      | some characteristicTable =>
        let character := normalizePathValue (userGetPath user clause.charId)
        match List.lookup character characteristicTable.rowNums with
        | some rowNum => InfoViewVal.recView ⟨characteristicTable.data, rowNum⟩
        | none => InfoViewVal.emptyRec
    { user with attrs := user.attrs ++ [(clause.name, value)] }

/-- `_getUser`: construct the `UserInfo` for a session, enriched by
user-attribute rules in registration order. -/
def getUser (st : GAState) (docSession : OptDocSession) : UserInfo :=
  let access := getDocSessionAccess docSession
  let fullUser := getDocSessionUser docSession
  let user : UserInfo :=
    { Access := access
      UserID := fullUser.map (·.id)
      Email := fullUser.map (·.email)
      Name := fullUser.map (·.name)
      attrs := [] }
  st.userAttributeRules.foldl (enrichUser st) user

/-! ## Rule evaluation (`evaluateRule` and `PermissionInfo`) -/

/-- `evaluateRule` (GranularAccess.ts): iterate the body in order; a `true`
match merges the rule's permission delta; a `NEED_ROW_DATA` error merges
the weakened delta; any other error is treated as a non-match (and logged);
finally the rule set's default permissions are merged.  The function is
total: a rule never crashes a broadcast. -/
def evaluateRule (ruleSet : RuleSet) (input : AclMatchInput) : PermissionSet :=
  let pset := ruleSet.body.foldl (fun pset rule =>
    match rule.matchFunc input with
    | .ok true => mergePartialPermissions pset rule.permissions
    | .ok false => pset
    | .error .needRowData =>
      mergePartialPermissions pset (makePartialPermissions rule.permissions)
    | .error (.other _) => pset) emptyPermissionSet
  mergePartialPermissions pset ruleSet.defaultPermissions

/-- `PermissionInfo._getDocDefaultAccess`: permissions for "*:*". -/
def getDocDefaultAccess (st : GAState) (input : AclMatchInput) : PermissionSet :=
  toMixed (evaluateRule (getDocDefaultRuleSet st) input)

/-- `PermissionInfo._getTableDefaultAccess`: permissions for "tableId:*",
defaulting to "*:*". -/
def getTableDefaultAccess (st : GAState) (input : AclMatchInput) (tableId : String) :
    PermissionSet :=
  match getTableDefaultRuleSet st tableId with
  | some ruleSet =>
    toMixed (mergePartialPermissions (evaluateRule ruleSet input) (getDocDefaultAccess st input))
  | none => getDocDefaultAccess st input

/-- `PermissionInfo._processColumnRule`: a column rule falls back to the
table default. -/
def processColumnRule (st : GAState) (input : AclMatchInput) (ruleSet : RuleSet) :
    PermissionSet :=
  toMixed (mergePartialPermissions (evaluateRule ruleSet input)
    (getTableDefaultAccess st input ruleSet.tableId))

/-- `PermissionInfo.getColumnAccess`: permissions for "tableId:colId",
defaulting to "tableId:*" and "*:*". -/
def getColumnAccess (st : GAState) (input : AclMatchInput) (tableId colId : String) :
    PermissionSet :=
  match getColumnRuleSet st tableId colId with
  | some ruleSet => processColumnRule st input ruleSet
  | none => getTableDefaultAccess st input tableId

/-- The bit-fold of `PermissionInfo.getTableAccess`: allow if all allow,
deny if all deny, mixedColumns if all concrete but not uniform, else
mixed. -/
def tableBitFold (bits : List PermValue) : PermValue :=
  if bits.all (· = .allow) then .allow
  else if bits.all (· = .deny) then .deny
  else if bits.all (fun b => b = .allow ∨ b = .deny) then .mixedColumns
  else .mixed

/-- `PermissionInfo.getTableAccess`: fold every column rule set of the table
plus the table default. -/
def getTableAccess (st : GAState) (input : AclMatchInput) (tableId : String) :
    PermissionSet :=
  let columnAccess := (getAllColumnRuleSets st tableId).map (processColumnRule st input)
  mergePermissions (columnAccess ++ [getTableDefaultAccess st input tableId]) tableBitFold

/-- The bit-fold of `PermissionInfo.getFullAccess`: allow if all allow, deny
if all deny, else mixed. -/
def docBitFold (bits : List PermValue) : PermValue :=
  if bits.all (· = .allow) then .allow
  else if bits.all (· = .deny) then .deny
  else .mixed

/-- `PermissionInfo.getFullAccess`: fold every table verdict plus the doc
default. -/
def getFullAccess (st : GAState) (input : AclMatchInput) : PermissionSet :=
  let tableAccess := st.tableIds.map (getTableAccess st input)
  mergePermissions (tableAccess ++ [getDocDefaultAccess st input]) docBitFold

/-- `_getAccess(docSession)` evaluated at a specific granularity: the
session's record-free input. -/
def sessionInput (st : GAState) (docSession : OptDocSession) : AclMatchInput :=
  { user := getUser st docSession }

/-! ## Public access checks -/

/-- `getTableAccess` (public method): table permissions of a session. -/
def getTableAccessOfSession (st : GAState) (docSession : OptDocSession)
    (tableId : String) : PermissionSet :=
  getTableAccess st (sessionInput st docSession) tableId

/-- `hasTableAccess`: whether the session has any access to a table. -/
def hasTableAccess (st : GAState) (docSession : OptDocSession) (tableId : String) : Bool :=
  (getTableAccessOfSession st docSession tableId).read ≠ .deny

/-- `Query` (app/common/ActiveDocAPI): a filtered table query. -/
structure Query where
  tableId : String
  filters : List (String × List CellValue)
deriving DecidableEq, Repr

/-- `hasQueryAccess`: whether the session can carry out a query. -/
def hasQueryAccess (st : GAState) (docSession : OptDocSession) (query : Query) : Bool :=
  hasTableAccess st docSession query.tableId

/-- `canReadEverything`: full-access read folds to allow. -/
def canReadEverything (st : GAState) (docSession : OptDocSession) : Bool :=
  (getFullAccess st (sessionInput st docSession)).read = .allow

/-- `hasFullAccess`: owner-level access. -/
def hasFullAccess (docSession : OptDocSession) : Bool :=
  getDocSessionAccess docSession = "owners"

/-- `hasNuancedAccess`: rules exist and the session is not an owner. -/
def hasNuancedAccess (st : GAState) (docSession : OptDocSession) : Bool :=
  if !st.haveRules then false else !hasFullAccess docSession

/-- `hasViewAccess`: the session's role can view. -/
def hasViewAccess (docSession : OptDocSession) : Bool :=
  canView (getDocSessionAccess docSession)

/-! ## User actions and `canApplyUserAction` -/

/-- `ACTION_WITH_TABLE_ID`: actions that may be allowed depending on the
table they refer to. -/
def ACTION_WITH_TABLE_ID : List String :=
  ["AddRecord", "BulkAddRecord", "UpdateRecord", "BulkUpdateRecord",
   "RemoveRecord", "BulkRemoveRecord", "ReplaceTableData", "TableData"]

/-- `SPECIAL_ACTIONS`: not allowed (yet) to a user with nuanced access. -/
def SPECIAL_ACTIONS : List String :=
  ["InitNewDoc", "EvalCode", "SetDisplayFormula", "CreateViewSection",
   "UpdateSummaryViewSection", "DetachSummaryViewSection", "GenImporterView",
   "TransformAndFinishImport", "AddColumn", "RemoveColumn", "RenameColumn",
   "ModifyColumn", "AddTable", "RemoveTable", "RenameTable", "AddView",
   "CopyFromColumn", "AddHiddenColumn", "RemoveViewSection"]

/-- `SURPRISING_ACTIONS`: deprecated or unlikely odd-ball actions. -/
def SURPRISING_ACTIONS : List String := ["RemoveView", "AddViewSection"]

/-- `OK_ACTIONS`: allowed unconditionally. -/
def OK_ACTIONS : List String := ["Calculate", "AddEmptyTable"]

/-- JS `String.prototype.startsWith`, stated over the character lists so
that proofs can evaluate it. -/
def strStartsWith (s pre : String) : Bool :=
  s.data.take pre.data.length == pre.data

/-- A user action, as `canApplyUserAction` observes it: a name at position
0, with position 1 read either as a tableId string (table-scoped actions)
or as a nested action list (ApplyUndoActions / ApplyDocActions). -/
inductive UserAction where
  | mk (name : String) (tableArg : String) (subActions : List UserAction)

mutual

/-- `canApplyUserAction`: whether the session may apply one action. -/
def canApplyUserAction (st : GAState) (docSession : OptDocSession) :
    UserAction → Bool
  | .mk name tableArg subActions =>
    if OK_ACTIONS.contains name then true
    else if SPECIAL_ACTIONS.contains name then !hasNuancedAccess st docSession
    else if SURPRISING_ACTIONS.contains name then hasFullAccess docSession
    else if name = "ApplyUndoActions" then canApplyUserActions st docSession subActions
    else if name = "ApplyDocActions" then canApplyUserActions st docSession subActions
    else if ACTION_WITH_TABLE_ID.contains name then
      if strStartsWith tableArg "_grist_" then !hasNuancedAccess st docSession
      else (getTableAccessOfSession st docSession tableArg).read == .allow
    else false

/-- `canApplyUserActions`: whether the session may apply a list of
actions. -/
def canApplyUserActions (st : GAState) (docSession : OptDocSession) :
    List UserAction → Bool
  | [] => true
  | a :: rest => canApplyUserAction st docSession a &&
      canApplyUserActions st docSession rest

end

/-! ## Action groups -/

/-- Modelled from the spec: the `ActionSummary` payload of an ActionGroup
(app/common/ActionSummary, not under src/); its contents are opaque to the
engine. -/
structure ActionSummary where
  entries : List String
deriving DecidableEq, Repr

/-- Modelled from the spec: `createEmptyActionSummary` (not under src/). -/
def createEmptyActionSummary : ActionSummary := ⟨[]⟩

/-- Modelled from the spec: an `ActionGroup` (app/common/ActionGroup, not
under src/): the engine reads and rewrites only `actionSummary` and `desc`;
`actionNum` stands for the fields it passes through. -/
structure ActionGroup where
  actionNum : Int
  actionSummary : ActionSummary
  desc : String
deriving DecidableEq, Repr

/-- `allowActionGroup`: whether an ActionGroup can be sent to the client. -/
def allowActionGroup (st : GAState) (docSession : OptDocSession)
    (_actionGroup : ActionGroup) : Bool :=
  canReadEverything st docSession

/-- `filterActionGroup`: pass the group through when `allowActionGroup` is
false (the source carries a TODO asking whether this check is inverted);
otherwise suppress the summary and description. -/
def filterActionGroup (st : GAState) (docSession : OptDocSession)
    (actionGroup : ActionGroup) : ActionGroup :=
  if !allowActionGroup st docSession actionGroup then actionGroup
  else { actionGroup with actionSummary := createEmptyActionSummary, desc := "" }

/-! ## Pruning of outgoing actions -/

/-- The errors raised inside the pruning path: the distinguished
`NEED_RELOAD` signal (`ErrorWithCode`) and plain internal errors. -/
inductive GError where
  | needReload (msg : String)
  | internalErr (msg : String)
deriving DecidableEq, Repr

/-- `_filterColumns`: keep only the columns satisfying the predicate
(single-record form). -/
def filterColumnsS (data : ColValues) (shouldInclude : String → Bool) : ColValues :=
  data.filter (fun p => shouldInclude p.1)

/-- `_filterColumns`: keep only the columns satisfying the predicate (bulk
form). -/
def filterColumnsB (data : BulkColValues) (shouldInclude : String → Bool) : BulkColValues :=
  data.filter (fun p => shouldInclude p.1)

/-- `_pruneColumns`: strip denied columns from an action; none if nothing
is left; column-schema actions on a readable column raise `NEED_RELOAD`. -/
def pruneColumns (st : GAState) (input : AclMatchInput) (a : DocAction)
    (tableId : String) : Except GError (Option DocAction) :=
  let keep := fun colId => (getColumnAccess st input tableId colId).read ≠ .deny
  match a with
  | .RemoveRecord _ _ | .BulkRemoveRecord _ _ => .ok (some a)
  | .AddRecord t r cols =>
    let na := filterColumnsS cols keep
    if na.isEmpty then .ok none else .ok (some (.AddRecord t r na))
  | .UpdateRecord t r cols =>
    let na := filterColumnsS cols keep
    if na.isEmpty then .ok none else .ok (some (.UpdateRecord t r na))
  | .BulkAddRecord t rs cols =>
    let na := filterColumnsB cols keep
    if na.isEmpty then .ok none else .ok (some (.BulkAddRecord t rs na))
  | .BulkUpdateRecord t rs cols =>
    let na := filterColumnsB cols keep
    if na.isEmpty then .ok none else .ok (some (.BulkUpdateRecord t rs na))
  | .ReplaceTableData t rs cols =>
    let na := filterColumnsB cols keep
    if na.isEmpty then .ok none else .ok (some (.ReplaceTableData t rs na))
  | .TableData t rs cols =>
    let na := filterColumnsB cols keep
    if na.isEmpty then .ok none else .ok (some (.TableData t rs na))
  | .AddColumn _ colId _ | .RemoveColumn _ colId | .RenameColumn _ colId _
  | .ModifyColumn _ colId _ =>
    if (getColumnAccess st input tableId colId).read = .deny then .ok none
    else .error (.needReload "document needs reload")
  | _ => .ok (some a)

/-- `_removeRowsAt` / lodash `pullAt`: drop the elements at the given
indexes. -/
def removeRowsAt (toRemove : List Nat) (l : List α) : List α :=
  l.enum.filterMap (fun p => if toRemove.contains p.1 then none else some p.2)

/-- The index mask of `_removeRows`:
`oldIds.map((id, idx) => rowIds.has(id) && idx || -1).filter(v => v !== -1)`.
Note the JS quirk carried over faithfully: when `idx` is 0, `has && 0`
evaluates to `0`, which `|| -1` collapses to `-1`, so index 0 is never
part of the mask. -/
def removeRowsMask (oldIds : List Nat) (rowIds : List Nat) : List Nat :=
  ((oldIds.enum.map (fun p =>
      if rowIds.contains p.2 then (if p.1 = 0 then (-1 : Int) else (p.1 : Int))
      else -1)).filter (· ≠ -1)).map Int.toNat

/-- `_removeRows`: remove a set of rows from a DocAction; none if the
action becomes empty. -/
def removeRows (a : DocAction) (rowIds : List Nat) : Option DocAction :=
  if isSchemaAction a then some a
  else match a with
  | .AddRecord _ r _ => if rowIds.contains r then none else some a
  | .UpdateRecord _ r _ => if rowIds.contains r then none else some a
  | .RemoveRecord _ r => if rowIds.contains r then none else some a
  | .BulkAddRecord t oldIds cols =>
    let mask := removeRowsMask oldIds rowIds
    let newIds := removeRowsAt mask oldIds
    if newIds.isEmpty then none
    else some (.BulkAddRecord t newIds (cols.map (fun p => (p.1, removeRowsAt mask p.2))))
  | .BulkUpdateRecord t oldIds cols =>
    let mask := removeRowsMask oldIds rowIds
    let newIds := removeRowsAt mask oldIds
    if newIds.isEmpty then none
    else some (.BulkUpdateRecord t newIds (cols.map (fun p => (p.1, removeRowsAt mask p.2))))
  | .BulkRemoveRecord t oldIds =>
    let mask := removeRowsMask oldIds rowIds
    let newIds := removeRowsAt mask oldIds
    if newIds.isEmpty then none else some (.BulkRemoveRecord t newIds)
  | .ReplaceTableData t oldIds cols =>
    let mask := removeRowsMask oldIds rowIds
    let newIds := removeRowsAt mask oldIds
    if newIds.isEmpty then none
    else some (.ReplaceTableData t newIds (cols.map (fun p => (p.1, removeRowsAt mask p.2))))
  | .TableData t oldIds cols =>
    let mask := removeRowsMask oldIds rowIds
    let newIds := removeRowsAt mask oldIds
    if newIds.isEmpty then none
    else some (.TableData t newIds (cols.map (fun p => (p.1, removeRowsAt mask p.2))))
  | _ => some a

/-- `_makeAdditions`: a BulkAddRecord carrying, from the after-snapshot,
exactly the rows in `rowIds`. -/
def makeAdditions (data : TableDataAction) (rowIds : List Nat) : Option DocAction :=
  if rowIds.isEmpty then none
  else
    let notAdded := data.rowIds.filter (fun id => !rowIds.contains id)
    match removeRows data.toDocAction notAdded with
    | none => none
    | some (.TableData t ids cols) => some (.BulkAddRecord t ids cols)
    | some _ => none

/-- `_makeRemovals`: a BulkRemoveRecord for the rows in `rowIds`. -/
def makeRemovals (data : TableDataAction) (rowIds : List Nat) : Option DocAction :=
  if rowIds.isEmpty then none
  else some (.BulkRemoveRecord data.tableId rowIds)

/-- `_getForbiddenRows`: among the supplied row ids, those whose per-row
read verdict in `data` is deny. -/
def getForbiddenRows (st : GAState) (docSession : OptDocSession)
    (data : TableDataAction) (ids : List Nat) : List Nat :=
  data.rowIds.enum.filterMap (fun p =>
    if !ids.contains p.2 then none
    else
      let input : AclMatchInput :=
        { user := getUser st docSession, record := some ⟨data, p.1⟩ }
      if (getTableAccess st input data.tableId).read = .deny then some p.2 else none)

/-- First-occurrence deduplication, matching iteration over a JS `Set`
built by insertion. -/
def dedupFirst [BEq α] (l : List α) : List α :=
  l.foldl (fun acc x => if acc.contains x then acc else acc ++ [x]) []

/-- The cell-censoring loop of `_filterRowsAndCells` applied to a bulk
column-value map: for each row, a deny read verdict marks the row for
removal, any other non-allow verdict censors the cells of non-allow
columns.  Returns the censored columns and whether any row was marked. -/
def censorCellsBulk (st : GAState) (docSession : OptDocSession)
    (data : TableDataAction) (tableId : String) (rowIds : List Nat)
    (cols : BulkColValues) : BulkColValues × Bool :=
  rowIds.enum.foldl (fun (acc : BulkColValues × Bool) p =>
    let dataIndex := data.rowIds.indexOf p.2
    let input : AclMatchInput :=
      { user := getUser st docSession, record := some ⟨data, dataIndex⟩ }
    let rowAccess := getTableAccess st input tableId
    if rowAccess.read = .deny then (acc.1, true)
    else if rowAccess.read ≠ .allow then
      (acc.1.map (fun q =>
        if (getColumnAccess st input tableId q.1).read ≠ .allow then
          (q.1, q.2.set p.1 (CellValue.s "CENSORED"))
        else q), acc.2)
    else acc) (cols, false)

/-- The cell-censoring loop of `_filterRowsAndCells` applied to a
single-record column-value map. -/
def censorCellsSingle (st : GAState) (docSession : OptDocSession)
    (data : TableDataAction) (tableId : String) (rowId : Nat)
    (cols : ColValues) : ColValues × Bool :=
  let dataIndex := data.rowIds.indexOf rowId
  let input : AclMatchInput :=
    { user := getUser st docSession, record := some ⟨data, dataIndex⟩ }
  let rowAccess := getTableAccess st input tableId
  if rowAccess.read = .deny then (cols, true)
  else if rowAccess.read ≠ .allow then
    (cols.map (fun q =>
      if (getColumnAccess st input tableId q.1).read ≠ .allow then
        (q.1, CellValue.s "CENSORED")
      else q), false)
  else (cols, false)

/-- `_filterRowsAndCells` in its `docAction ≠ data` mode (as called from
`_pruneRows`): schema actions and actions without column values pass
through; otherwise cells are censored per row, and a row whose read verdict
is deny raises the internal "Unexpected row removal" error. -/
def censorCellsInAction (st : GAState) (docSession : OptDocSession)
    (data : TableDataAction) (docAction : DocAction) : Except GError DocAction :=
  if isSchemaAction docAction then .ok docAction
  else match docAction with
  | .RemoveRecord _ _ | .BulkRemoveRecord _ _ => .ok docAction
  | .AddRecord t r cols =>
    let res := censorCellsSingle st docSession data t r cols
    if res.2 then .error (.internalErr "Unexpected row removal")
    else .ok (.AddRecord t r res.1)
  | .UpdateRecord t r cols =>
    let res := censorCellsSingle st docSession data t r cols
    if res.2 then .error (.internalErr "Unexpected row removal")
    else .ok (.UpdateRecord t r res.1)
  | .BulkAddRecord t rs cols =>
    let res := censorCellsBulk st docSession data t rs cols
    if res.2 then .error (.internalErr "Unexpected row removal")
    else .ok (.BulkAddRecord t rs res.1)
  | .BulkUpdateRecord t rs cols =>
    let res := censorCellsBulk st docSession data t rs cols
    if res.2 then .error (.internalErr "Unexpected row removal")
    else .ok (.BulkUpdateRecord t rs res.1)
  | .ReplaceTableData t rs cols =>
    let res := censorCellsBulk st docSession data t rs cols
    if res.2 then .error (.internalErr "Unexpected row removal")
    else .ok (.ReplaceTableData t rs res.1)
  | .TableData t rs cols =>
    let res := censorCellsBulk st docSession data t rs cols
    if res.2 then .error (.internalErr "Unexpected row removal")
    else .ok (.TableData t rs res.1)
  | a => .ok a

/-- Row ids are add-like for the purposes of `_pruneRows`. -/
def isAddLike : DocAction → Bool
  | .AddRecord _ _ _ | .BulkAddRecord _ _ _
  | .ReplaceTableData _ _ _ | .TableData _ _ _ => true
  | _ => false

/-- Row ids are update-like for the purposes of `_pruneRows`. -/
def isUpdateLike : DocAction → Bool
  | .UpdateRecord _ _ _ | .BulkUpdateRecord _ _ _ => true
  | _ => false

/-- Row ids are remove-like for the purposes of `_pruneRows`. -/
def isRemoveLike : DocAction → Bool
  | .RemoveRecord _ _ | .BulkRemoveRecord _ _ => true
  | _ => false

/-- The row-partition loop of `_pruneRows`: returns
`(removals, forceAdds, forceRemoves)` in insertion order. -/
def pruneRowsPlan (a : DocAction) (ids forbiddenBefores forbiddenAfters : List Nat) :
    List Nat × List Nat × List Nat :=
  ids.foldl (fun (acc : List Nat × List Nat × List Nat) id =>
    let (removals, forceAdds, forceRemoves) := acc
    let forbiddenBefore := forbiddenBefores.contains id
    let forbiddenAfter := forbiddenAfters.contains id
    if !forbiddenBefore && !forbiddenAfter then acc
    else if forbiddenBefore && forbiddenAfter then
      (removals ++ [id], forceAdds, forceRemoves)
    else if forbiddenBefore then
      -- The row was forbidden and now is allowed.
      if isAddLike a then acc
      else if isUpdateLike a then (removals ++ [id], forceAdds ++ [id], forceRemoves)
      else (removals ++ [id], forceAdds, forceRemoves)
    else
      -- The row was allowed and now is forbidden.
      if isRemoveLike a then acc
      else if isUpdateLike a then (removals ++ [id], forceAdds, forceRemoves ++ [id])
      else (removals ++ [id], forceAdds, forceRemoves)) ([], [], [])

/-- `_pruneRows`: the slow path of outgoing pruning.  Schema actions pass
through; otherwise the before/after snapshots partition the referenced rows
into kept, dropped, force-added and force-removed, and the revised actions
`[synthetic-adds, mutated-a, synthetic-removes]` (empty ones filtered out)
are passed through cell censoring. -/
def pruneRows (st : GAState) (docSession : OptDocSession)
    (rowSnapshots : Option (List (TableDataAction × TableDataAction)))
    (a : DocAction) (idx : Nat) : Except GError (List DocAction) :=
  if isSchemaAction a then .ok [a]
  else match rowSnapshots with
  | none => .error (.internalErr "Actions not available")
  | some allRowSnapshots =>
    match allRowSnapshots.get? idx with
    | none => .error (.internalErr "Actions not available")
    | some snap =>
      let rowsBefore := snap.1
      let rowsAfter := snap.2
      let ids := dedupFirst (getRowIdsFromDocAction a)
      let forbiddenBefores := getForbiddenRows st docSession rowsBefore ids
      let forbiddenAfters := getForbiddenRows st docSession rowsAfter ids
      let plan := pruneRowsPlan a ids forbiddenBefores forbiddenAfters
      let revisedDocActions :=
        [makeAdditions rowsAfter plan.2.1, removeRows a plan.1,
         makeRemovals rowsAfter plan.2.2].filterMap id
      revisedDocActions.mapM (censorCellsInAction st docSession rowsAfter)

/-- `pruneOutgoingDocAction`: cut out rows/columns not accessible to the
user; may raise `NEED_RELOAD`; empty output when entirely pruned. -/
def pruneOutgoingDocAction (st : GAState) (docSession : OptDocSession)
    (rowSnapshots : Option (List (TableDataAction × TableDataAction)))
    (a : DocAction) (idx : Nat) : Except GError (List DocAction) :=
  let tableId := getTableId a
  let input := sessionInput st docSession
  let tableAccess := getTableAccess st input tableId
  if tableAccess.read = .deny then .ok []
  else if tableAccess.read = .allow then .ok [a]
  else if tableAccess.read = .mixedColumns then
    (pruneColumns st input a tableId).map (fun r => r.toList)
  else do
    let revisedDocActions ← pruneRows st docSession rowSnapshots a idx
    let pruned ← revisedDocActions.mapM (fun na => pruneColumns st input na tableId)
    return pruned.filterMap id

/-- The per-action loop of `filterOutgoingDocActions`, carrying the bundle
index. -/
def filterOutgoingFrom (st : GAState) (docSession : OptDocSession)
    (rowSnapshots : Option (List (TableDataAction × TableDataAction))) :
    Nat → List DocAction → Except GError (List DocAction)
  | _, [] => .ok []
  | idx, a :: rest => do
    let head ← pruneOutgoingDocAction st docSession rowSnapshots a idx
    let tail ← filterOutgoingFrom st docSession rowSnapshots (idx + 1) rest
    return head ++ tail

/-- `filterOutgoingDocActions`: prune every action of a bundle, in bundle
order, flattening the per-action results. -/
def filterOutgoingDocActions (st : GAState) (docSession : OptDocSession)
    (rowSnapshots : Option (List (TableDataAction × TableDataAction)))
    (docActions : List DocAction) : Except GError (List DocAction) :=
  filterOutgoingFrom st docSession rowSnapshots 0 docActions

/-- `_filterRowsAndCells` in its `docAction = data` mode (as called from
`filterData`): denied rows are collected and then removed in place, other
rows get non-allow cells censored.  The row cursor reads the original data;
in-place censoring never touches the row currently being evaluated. -/
def filterRowsAndCellsSelf (st : GAState) (docSession : OptDocSession)
    (data : TableDataAction) : TableDataAction :=
  let tableId := data.tableId
  let res := data.rowIds.enum.foldl (fun (acc : BulkColValues × List Nat) p =>
    let input : AclMatchInput :=
      { user := getUser st docSession, record := some ⟨data, p.1⟩ }
    let rowAccess := getTableAccess st input tableId
    if rowAccess.read = .deny then (acc.1, acc.2 ++ [p.1])
    else if rowAccess.read ≠ .allow then
      (acc.1.map (fun q =>
        if (getColumnAccess st input tableId q.1).read ≠ .allow then
          (q.1, q.2.set p.1 (CellValue.s "CENSORED"))
        else q), acc.2)
    else acc) (data.colValues, [])
  { data with rowIds := removeRowsAt res.2 data.rowIds,
              colValues := res.1.map (fun q => (q.1, removeRowsAt res.2 q.2)) }

/-- `filterData`: row filtering when the table read verdict is mixed, then
column filtering of read-denied columns. -/
def filterData (st : GAState) (docSession : OptDocSession)
    (data : TableDataAction) : TableDataAction :=
  let tableId := data.tableId
  let data :=
    if (getTableAccessOfSession st docSession tableId).read = .mixed then
      filterRowsAndCellsSelf st docSession data
    else data
  { data with colValues :=
      filterColumnsB data.colValues (fun colId =>
        (getColumnAccess st (sessionInput st docSession) tableId colId).read ≠ .deny) }

/-! ## Metadata censoring (`filterMetaTables`) -/

/-- `DocData.getTable` over the engine's query interface. -/
def docGetTable (st : GAState) (tableId : String) : Option TableDataAction :=
  List.lookup tableId st.docData

/-- The cell of a table at (colId, row index); null when absent. -/
def cellAt (t : TableDataAction) (colId : String) (idx : Nat) : CellValue :=
  match List.lookup colId t.colValues with
  | some vals => vals.getD idx .null
  | none => .null

/-- Numeric reading of a cell (foreign keys); non-numbers read 0. -/
def cellNat : CellValue → Nat
  | .n v => v.toNat
  | _ => 0

/-- String reading of a cell, as JS template interpolation would render
it. -/
def cellStr : CellValue → String
  | .s v => v
  | .n v => toString v
  | .b true => "true"
  | .b false => "false"
  | .null => "null"

/-- `TableData.findRow`: the row id of the first row whose column equals
the value, else 0 (an absent table also yields 0). -/
def findRow (t : Option TableDataAction) (colId : String) (value : CellValue) : Nat :=
  match t with
  | none => 0
  | some t =>
    match (t.rowIds.zip ((List.lookup colId t.colValues).getD [])).find?
        (fun p => p.2 = value) with
    | some p => p.1
    | none => 0

/-- The `columnCode` helper of `filterMetaTables`:
`"<tableRef> <colId>"`. -/
def columnCode (tableRef : Nat) (colId : String) : String :=
  toString tableRef ++ " " ++ colId

/-- The first collection loop of `filterMetaTables`: tables whose read
verdict is deny (by tableRef) and censored column codes. -/
def censoredTablesAndCodes (st : GAState) (docSession : OptDocSession) :
    List Nat × List String :=
  (getAllTableIds st).foldl (fun acc tableId =>
    let tableAccess := getTableAccessOfSession st docSession tableId
    let tableRef := findRow (docGetTable st "_grist_Tables") "tableId" (.s tableId)
    let cTables :=
      if tableAccess.read = .deny ∧ tableRef ≠ 0 then acc.1 ++ [tableRef] else acc.1
    let cCodes := (getAllColumnRuleSets st tableId).foldl (fun cCodes ruleSet =>
      match ruleSet.colIds with
      | some colIds => colIds.foldl (fun cCodes colId =>
          if (getColumnAccess st (sessionInput st docSession) tableId colId).read = .deny
              ∧ tableRef ≠ 0 then
            cCodes ++ [columnCode tableRef colId]
          else cCodes) cCodes
      | none => cCodes) acc.2
    (cTables, cCodes)) ([], [])

/-- The section/view collection loop of `filterMetaTables`. -/
def censoredSectionsAndViews (st : GAState) (cTables : List Nat) :
    List Nat × List Nat :=
  match docGetTable st "_grist_Views_section" with
  | none => ([], [])
  | some t => t.rowIds.enum.foldl (fun (acc : List Nat × List Nat) p =>
      if !cTables.contains (cellNat (cellAt t "tableRef" p.1)) then acc
      else
        let parentId := cellNat (cellAt t "parentId" p.1)
        (acc.1 ++ [p.2], if parentId ≠ 0 then acc.2 ++ [parentId] else acc.2))
      ([], [])

/-- The column collection loop of `filterMetaTables`. -/
def censoredColumnsOf (st : GAState) (cTables : List Nat) (cCodes : List String) :
    List Nat :=
  match docGetTable st "_grist_Tables_column" with
  | none => []
  | some t => t.rowIds.enum.foldl (fun acc p =>
      let parentId := cellNat (cellAt t "parentId" p.1)
      let colId := cellStr (cellAt t "colId" p.1)
      if cTables.contains parentId ∨ cCodes.contains (columnCode parentId colId) then
        acc ++ [p.2]
      else acc) []

/-- The field collection loop of `filterMetaTables`. -/
def censoredFieldsOf (st : GAState) (cSections cColumns : List Nat) : List Nat :=
  match docGetTable st "_grist_Views_section_field" with
  | none => []
  | some t => t.rowIds.enum.foldl (fun acc p =>
      if !cSections.contains (cellNat (cellAt t "parentId" p.1)) ∧
          !cColumns.contains (cellNat (cellAt t "colRef" p.1)) then acc
      else acc ++ [p.2]) []

/-- The overwrite loop of `_censor` on one column: positions whose row id
is censored receive the constant. -/
def censorValsFrom (rowIds ids : List Nat) (c : CellValue) :
    Nat → List CellValue → List CellValue
  | _, [] => []
  | i, v :: vs =>
    (match rowIds.get? i with
     | some r => if ids.contains r then c else v
     | none => v) :: censorValsFrom rowIds ids c (i + 1) vs

/-- `_censor`: apply constant overwrites (one per listed column) to the
rows with the given ids; row identity and table shape are preserved. -/
def censorTableAction (t : TableDataAction) (ids : List Nat)
    (colOps : List (String × CellValue)) : TableDataAction :=
  { t with colValues := t.colValues.map (fun p =>
      match List.lookup p.1 colOps with
      | some c => (p.1, censorValsFrom t.rowIds ids c 0 p.2)
      | none => p) }

/-- The metadata-table map passed to `filterMetaTables`, with the five
tables the censor rewrites. -/
structure MetaTables where
  tables : TableDataAction
  views : TableDataAction
  sections : TableDataAction
  fields : TableDataAction
  columns : TableDataAction
deriving DecidableEq, Repr

/-- `filterMetaTables`: return the input untouched for read-everything
sessions; otherwise overwrite names, titles, formulas and foreign keys of
censored tables, views, sections, columns and fields. -/
def filterMetaTables (st : GAState) (docSession : OptDocSession)
    (tables : MetaTables) : MetaTables :=
  if canReadEverything st docSession then tables
  else
    let tc := censoredTablesAndCodes st docSession
    let sv := censoredSectionsAndViews st tc.1
    let cColumns := censoredColumnsOf st tc.1 tc.2
    let cFields := censoredFieldsOf st sv.1 cColumns
    { tables := censorTableAction tables.tables tc.1 [("tableId", .s "")]
      views := censorTableAction tables.views sv.2 [("name", .s "")]
      sections := censorTableAction tables.sections sv.1
        [("title", .s ""), ("tableRef", .n 0)]
      fields := censorTableAction tables.fields cFields
        [("widgetOptions", .s ""), ("filter", .s ""), ("parentId", .n 0)]
      columns := censorTableAction tables.columns cColumns
        [("label", .s ""), ("colId", .s ""), ("widgetOptions", .s ""),
         ("formula", .s ""), ("type", .s "Any"), ("parentId", .n 0)] }

/-! ## Rule reload (`update`) -/

/-- JS `Map.set` on an association list: replace the first binding of the
key, else append. -/
def alistSet [BEq κ] : List (κ × α) → κ → α → List (κ × α)
  | [], k, v => [(k, v)]
  | (k', v') :: rest, k, v =>
    if k' == k then (k', v) :: rest else (k', v') :: alistSet rest k v

/-- `getSetMapValue(map, key, () => []).push(v)` on an association list of
lists. -/
def alistPush [BEq κ] : List (κ × List α) → κ → α → List (κ × List α)
  | [], k, v => [(k, [v])]
  | (k', vs) :: rest, k, v =>
    if k' == k then (k', vs ++ [v]) :: rest else (k', vs) :: alistPush rest k v

/-- The rule-classification loop of `update`: builds the column rule-set
index, the table:column map, the table-default index and the doc default;
a doc-level rule set listing specific columns or a duplicate table default
raises. -/
def buildRuleMaps : List RuleSet → List (String × List RuleSet) →
    List (String × RuleSet) → List (String × RuleSet) → RuleSet →
    Except String (List (String × List RuleSet) × List (String × RuleSet) ×
      List (String × RuleSet) × RuleSet)
  | [], colRuleSets, tableColMap, tableRuleSets, defaultRuleSet =>
    .ok (colRuleSets, tableColMap, tableRuleSets, defaultRuleSet)
  | ruleSet :: rest, colRuleSets, tableColMap, tableRuleSets, defaultRuleSet =>
    if ruleSet.tableId = "*" then
      match ruleSet.colIds with
      | none =>
        buildRuleMaps rest colRuleSets tableColMap tableRuleSets
          { ruleSet with body := ruleSet.body ++ DEFAULT_RULE_SET.body
                         defaultPermissions := DEFAULT_RULE_SET.defaultPermissions }
      | some _ => .error ("Invalid rule for tableId " ++ ruleSet.tableId)
    else match ruleSet.colIds with
      | none =>
        if (List.lookup ruleSet.tableId tableRuleSets).isSome then
          .error ("Invalid duplicate default rule for " ++ ruleSet.tableId)
        else
          buildRuleMaps rest colRuleSets tableColMap
            (alistSet tableRuleSets ruleSet.tableId ruleSet) defaultRuleSet
      | some colIds =>
        buildRuleMaps rest (alistPush colRuleSets ruleSet.tableId ruleSet)
          (colIds.foldl (fun m colId =>
            alistSet m (ruleSet.tableId ++ ":" ++ colId) ruleSet) tableColMap)
          tableRuleSets defaultRuleSet

/-- `_updateCharacteristicTable` body after the duplicate check: load the
table and build its normalized-key map.  Reading the lookup column of a
fetched table that lacks it raises (`matches.length` on `undefined` is a
TypeError in the source, which escapes from `update()`). -/
def makeCharacteristicTable (clause : UserAttributeRule)
    (data : TableDataAction) : Except String CharacteristicTable :=
  match List.lookup clause.lookupColId data.colValues with
  | none =>
    .error ("TypeError: cannot read length of missing column " ++ clause.lookupColId)
  | some matchVals =>
    .ok { tableId := clause.tableId
          colId := clause.lookupColId
          rowNums := matchVals.enum.foldl (fun m p => alistSet m (normalizeValue p.2) p.1) []
          data := data }

/-- `_updateCharacteristicTables`: clear the collection, then load each
user-attribute rule's table in order; a name already present raises the
duplicate-name error, and a table lacking its lookup column raises the
TypeError.  On an error the entries loaded before it are what remains
installed, so the error carries the partial collection. -/
def updateCharacteristicTables (rules : List (String × UserAttributeRule))
    (fetch : String → TableDataAction) :
    Except (String × List (String × CharacteristicTable))
      (List (String × CharacteristicTable)) :=
  rules.foldlM (fun acc p =>
    let clause := p.2
    if (List.lookup clause.name acc).isSome then
      .error ("User attribute " ++ clause.name ++ " ignored: duplicate name", acc)
    else
      match makeCharacteristicTable clause (fetch clause.tableId) with
      | .error e => .error (e, acc)
      | .ok table => .ok (acc ++ [(clause.name, table)])) []

/-- `update`: rebuild the rule store from the freshly read rule sets and
user attributes.  Mirrors the mutation order of the source: `_haveRules`
is assigned from the new rule list before the classification loop runs, so
it is not rolled back when the loop raises; the index swap happens only
after the loop succeeds.  The result pairs the state as left by the call
with the raised error, if any. -/
def update (st : GAState) (ruleSets : List RuleSet)
    (userAttributes : List UserAttributeRule)
    (fetch : String → TableDataAction) : GAState × Option String :=
  let userAttributeMap :=
    userAttributes.foldl
      (fun m (userAttr : UserAttributeRule) => alistSet m userAttr.name userAttr)
      ([] : List (String × UserAttributeRule))
  let st := { st with haveRules := decide (0 < ruleSets.length) }
  match buildRuleMaps ruleSets [] [] [] DEFAULT_RULE_SET with
  | .error e => (st, some e)
  | .ok (colRuleSets, tableColMap, tableRuleSets, defaultRuleSet) =>
    let st := { st with
      columnRuleSets := colRuleSets
      tableColumnMap := tableColMap
      tableRuleSets := tableRuleSets
      defaultRuleSet := defaultRuleSet
      tableIds := dedupFirst (colRuleSets.map Prod.fst ++ tableRuleSets.map Prod.fst)
      userAttributeRules := userAttributeMap }
    match updateCharacteristicTables st.userAttributeRules fetch with
    | .error ep => ({ st with characteristicTables := ep.2 }, some ep.1)
    | .ok tables => ({ st with characteristicTables := tables }, none)

/-! ## Concrete fixtures used by witnesses and counterexamples -/

/-- A store fetch returning empty tables. -/
def fetch0 : String → TableDataAction :=
  fun tableId => { tableId := tableId, rowIds := [], colValues := [] }

/-- A store fetch whose tables carry the lookup columns `c` and `c2`. -/
def fetchS : String → TableDataAction :=
  fun tableId =>
    { tableId := tableId, rowIds := [1]
      colValues := [("c", [.s "x"]), ("c2", [.s "y"])] }

/-- An owner session. -/
def sessOwner : OptDocSession :=
  { access := "owners", user := some ⟨1, "owner@example.com", "Owner"⟩ }

/-- A viewer session for user bob. -/
def sessViewerBob : OptDocSession :=
  { access := "viewers", user := some ⟨2, "bob@example.com", "Bob"⟩ }

/-- A session with no view access. -/
def sessNone : OptDocSession := { access := "none", user := none }

/-- A freshly constructed engine over an empty document. -/
def st0 : GAState := initialState []

/-- A rule that always matches and denies read. -/
def denyReadRule : Rule :=
  { aclFormula := "True"
    matchFunc := fun _ => .ok true
    permissions := { emptyPermissionSet with read := .deny }
    permissionsText := "-R" }

/-- A column rule set denying read on column `sec` of table `T`. -/
def secRuleSet : RuleSet :=
  { tableId := "T", colIds := some ["sec"], body := [denyReadRule]
    defaultPermissions := emptyPermissionSet }

/-- The engine after loading the `sec` column rule: table `T` reads as
`mixedColumns` for an owner. -/
def stMixedCols : GAState := (update st0 [secRuleSet] [] fetch0).1

/-- A row-dependent rule: denies read when the record's `owner` column is
not bob; raises the needs-row signal without a record. -/
def ownerRowRule : Rule :=
  { aclFormula := "rec.owner != user.Email"
    matchFunc := fun input =>
      match input.record with
      | none => .error .needRowData
      | some r => .ok (!(r.get "owner" == CellValue.s "bob@example.com"))
    permissions := { emptyPermissionSet with read := .deny }
    permissionsText := "-R" }

/-- A table-default rule set for `T` carrying the row-dependent rule. -/
def tRuleSet : RuleSet :=
  { tableId := "T", colIds := none, body := [ownerRowRule]
    defaultPermissions := emptyPermissionSet }

/-- The engine after loading the row-dependent rule: table `T` reads as
`mixed` for the viewer bob. -/
def stRowRules : GAState := (update st0 [tRuleSet] [] fetch0).1

/-- A snapshot of table `T`: row 1 is owned by alice (forbidden to bob),
row 2 by bob (allowed). -/
def snapT : TableDataAction :=
  { tableId := "T", rowIds := [1, 2]
    colValues := [("owner", [.s "alice@example.com", .s "bob@example.com"]),
                  ("x", [.n 1, .n 2])] }

/-- A bulk update touching rows 1 and 2 of `T`, with the forbidden row
first. -/
def bulkUpd : DocAction := .BulkUpdateRecord "T" [1, 2] [("x", [.n 10, .n 20])]

/-- A rule whose predicate raises a non-needs-row error. -/
def errRule : Rule :=
  { aclFormula := "boom"
    matchFunc := fun _ => .error (.other "boom")
    permissions := parsePermissions "all"
    permissionsText := "all" }

/-- A record-free input for the viewer bob. -/
def inputBobNoRec : AclMatchInput :=
  { user := { Access := "viewers", UserID := some 2
              Email := some "bob@example.com", Name := some "Bob", attrs := [] } }

end Grist

namespace Grist

/-! ## Claim C10: hasTableAccess / hasQueryAccess -/

/-- C10: `hasTableAccess(s, t)` is true iff the table read verdict is not
deny — so `mixed` and `mixedColumns` verdicts still count as accessible —
and `hasQueryAccess(s, q)` equals `hasTableAccess(s, q.tableId)`. -/
theorem hasTableAccess_iff_read_not_deny :
    ∀ (st : GAState) (docSession : OptDocSession) (tableId : String) (q : Query),
      (hasTableAccess st docSession tableId = true ↔
        (getTableAccessOfSession st docSession tableId).read ≠ .deny) ∧
      ((getTableAccessOfSession st docSession tableId).read = .mixed ∨
          (getTableAccessOfSession st docSession tableId).read = .mixedColumns →
        hasTableAccess st docSession tableId = true) ∧
      hasQueryAccess st docSession q = hasTableAccess st docSession q.tableId := by
  intro st docSession tableId q
  refine ⟨?_, ?_, rfl⟩
  · simp [hasTableAccess]
  · intro h
    rcases h with h | h <;> simp [hasTableAccess, h]

/-- Witness for C10 at a concrete mixed-columns table. -/
theorem hasTableAccess_iff_read_not_deny_witness :
    hasTableAccess stMixedCols sessOwner "T" = true :=
  (hasTableAccess_iff_read_not_deny stMixedCols sessOwner "T" ⟨"T", []⟩).2.1
    (Or.inr (by decide))

/-! ## Claim C9: filterActionGroup -/

/-- C9: `filterActionGroup` passes the original group through when the
allow predicate (`canReadEverything`) is false, and when it is true
returns a copy with an empty action summary and an empty description —
the behavior is as specified (not inverted). -/
theorem filterActionGroup_spec :
    ∀ (st : GAState) (docSession : OptDocSession) (g : ActionGroup),
      filterActionGroup st docSession g =
        (if allowActionGroup st docSession g then
          { g with actionSummary := createEmptyActionSummary, desc := "" }
        else g) ∧
      allowActionGroup st docSession g = canReadEverything st docSession := by
  intro st docSession g
  refine ⟨?_, rfl⟩
  by_cases h : allowActionGroup st docSession g <;> simp [filterActionGroup, h]

/-! ## Claim C4: evaluateRule error contract -/

/-- C4: a rule whose predicate raises the needs-row signal contributes its
weakened delta (allow/deny bits downgraded to allowSome/denySome,
equivalent to an unconditional match with `makePartialPermissions` of its
delta); a rule whose predicate raises any other error is equivalent to no
rule at all (non-match); `evaluateRule` is a total function into
permission sets, so a rule never crashes a broadcast. -/
theorem evaluateRule_error_contract :
    ∀ (rs : RuleSet) (input : AclMatchInput) (pre post : List Rule) (rule : Rule),
      (∀ msg, rule.matchFunc input = .error (.other msg) →
        evaluateRule { rs with body := pre ++ rule :: post } input =
          evaluateRule { rs with body := pre ++ post } input) ∧
      (rule.matchFunc input = .error .needRowData →
        evaluateRule { rs with body := pre ++ rule :: post } input =
          evaluateRule { rs with body := pre ++
            { rule with matchFunc := fun _ => .ok true
                        permissions := makePartialPermissions rule.permissions } :: post } input) ∧
      makePartialPermissionValue .allow = .allowSome ∧
      makePartialPermissionValue .deny = .denySome := by
  intro rs input pre post rule
  refine ⟨?_, ?_, rfl, rfl⟩
  · intro msg h
    simp [evaluateRule, List.foldl_append, h]
  · intro h
    simp [evaluateRule, List.foldl_append, h]

/-- Witness for C4: a non-needs-row error rule drops out, and a needs-row
rule merges its weakened delta, at concrete inputs. -/
theorem evaluateRule_error_contract_witness :
    ((errRule.matchFunc inputBobNoRec = .error (.other "boom")) ∧
      evaluateRule { tRuleSet with body := [errRule] } inputBobNoRec =
        evaluateRule { tRuleSet with body := [] } inputBobNoRec) ∧
    ((ownerRowRule.matchFunc inputBobNoRec = .error .needRowData) ∧
      evaluateRule { tRuleSet with body := [ownerRowRule] } inputBobNoRec =
        evaluateRule { tRuleSet with body :=
          [{ ownerRowRule with matchFunc := fun _ => .ok true
                               permissions := makePartialPermissions ownerRowRule.permissions }] }
          inputBobNoRec) := by
  constructor
  · exact ⟨rfl,
      (evaluateRule_error_contract tRuleSet inputBobNoRec [] [] errRule).1 "boom" rfl⟩
  · exact ⟨rfl,
      (evaluateRule_error_contract tRuleSet inputBobNoRec [] [] ownerRowRule).2.1 rfl⟩

/-! ## Claim C6: canApplyUserAction table policy -/

/-- The table-action branch of `canApplyUserAction`, isolated. -/
lemma canApplyUserAction_tableBranch (st : GAState) (docSession : OptDocSession)
    (name tableArg : String) (subs : List UserAction)
    (h1 : OK_ACTIONS.contains name = false)
    (h2 : SPECIAL_ACTIONS.contains name = false)
    (h3 : SURPRISING_ACTIONS.contains name = false)
    (h4 : name ≠ "ApplyUndoActions") (h5 : name ≠ "ApplyDocActions")
    (h6 : ACTION_WITH_TABLE_ID.contains name = true) :
    canApplyUserAction st docSession (.mk name tableArg subs) =
      if strStartsWith tableArg "_grist_" then !hasNuancedAccess st docSession
      else (getTableAccessOfSession st docSession tableArg).read == .allow := by
  rw [canApplyUserAction]
  simp at h1 h2 h3 h6
  simp [h1, h2, h3, h4, h5, h6]

/-- C6: for every table-scoped record action, a system-reserved
(`_grist_`-prefixed) table requires non-nuanced access, any other table
requires a read verdict of exactly allow; an action whose name is in none
of the recognized sets is denied. -/
theorem canApplyUserAction_tablePolicy :
    ∀ (st : GAState) (docSession : OptDocSession) (name tableArg : String)
      (subs : List UserAction),
      (ACTION_WITH_TABLE_ID.contains name = true →
        canApplyUserAction st docSession (.mk name tableArg subs) =
          if strStartsWith tableArg "_grist_" then !hasNuancedAccess st docSession
          else (getTableAccessOfSession st docSession tableArg).read == .allow) ∧
      (OK_ACTIONS.contains name = false → SPECIAL_ACTIONS.contains name = false →
       SURPRISING_ACTIONS.contains name = false →
       ACTION_WITH_TABLE_ID.contains name = false →
       name ≠ "ApplyUndoActions" → name ≠ "ApplyDocActions" →
        canApplyUserAction st docSession (.mk name tableArg subs) = false) := by
  intro st docSession name tableArg subs
  constructor
  · intro h6
    have hmem : name ∈ ACTION_WITH_TABLE_ID := by simpa using h6
    simp only [ACTION_WITH_TABLE_ID, List.mem_cons, List.not_mem_nil, or_false] at hmem
    rcases hmem with h | h | h | h | h | h | h | h <;> subst h <;>
      exact canApplyUserAction_tableBranch st docSession _ tableArg subs
        (by decide) (by decide) (by decide) (by decide) (by decide) (by decide)
  · intro h1 h2 h3 h6 h4 h5
    rw [canApplyUserAction]
    simp at h1 h2 h3 h6
    simp [h1, h2, h3, h4, h5, h6]

/-- Witness for C6: concrete evaluations of both branches (non-reserved
table with a deny read verdict, reserved table without nuanced access,
unrecognized action name). -/
theorem canApplyUserAction_tablePolicy_witness :
    canApplyUserAction st0 sessNone (.mk "UpdateRecord" "T" []) = false ∧
    canApplyUserAction st0 sessNone (.mk "UpdateRecord" "_grist_Tables" []) = true ∧
    canApplyUserAction st0 sessNone (.mk "Frobnicate" "T" []) = false := by
  refine ⟨?_, ?_, ?_⟩
  · rw [(canApplyUserAction_tablePolicy st0 sessNone "UpdateRecord" "T" []).1 (by decide)]
    decide
  · rw [(canApplyUserAction_tablePolicy st0 sessNone "UpdateRecord"
      "_grist_Tables" []).1 (by decide)]
    decide
  · exact (canApplyUserAction_tablePolicy st0 sessNone "Frobnicate" "T" []).2
      (by decide) (by decide) (by decide) (by decide) (by decide) (by decide)

/-! ## Claim C2: read-everything sessions see everything unchanged -/

/-- Well-formedness of the rule indexes, as `update` establishes them:
every table with a column or table-default rule set is listed in
`tableIds`. -/
def RuleTablesIndexed (st : GAState) : Prop :=
  (∀ t, (List.lookup t st.columnRuleSets).isSome = true → t ∈ st.tableIds) ∧
  (∀ t, (List.lookup t st.tableRuleSets).isSome = true → t ∈ st.tableIds)

lemma docBitFold_eq_allow {bits : List PermValue} (h : docBitFold bits = .allow) :
    ∀ b ∈ bits, b = .allow := by
  intro b hb
  by_cases hall : bits.all (fun x => x = PermValue.allow)
  · have := List.all_eq_true.mp hall b hb
    simpa using this
  · exfalso
    unfold docBitFold at h
    rw [if_neg hall] at h
    by_cases h2 : bits.all (fun x => x = PermValue.deny) <;> simp [h2] at h

/-- If the full-access read verdict is allow, then every table's read
verdict is allow (also for tables not mentioned in any rule, which inherit
the doc default). -/
lemma tableRead_allow_of_canReadEverything (st : GAState) (docSession : OptDocSession)
    (hidx : RuleTablesIndexed st) (hread : canReadEverything st docSession = true) :
    ∀ tableId,
      (getTableAccess st (sessionInput st docSession) tableId).read = .allow := by
  intro tableId
  have h0 : (getFullAccess st (sessionInput st docSession)).read = .allow := by
    simpa [canReadEverything] using hread
  have hfold : ∀ b ∈ ((st.tableIds.map (getTableAccess st (sessionInput st docSession))
      ++ [getDocDefaultAccess st (sessionInput st docSession)]).map PermissionSet.read),
      b = .allow := docBitFold_eq_allow h0
  have hdoc : (getDocDefaultAccess st (sessionInput st docSession)).read = .allow := by
    apply hfold
    simp
  by_cases hmem : tableId ∈ st.tableIds
  · apply hfold
    apply List.mem_map_of_mem
    apply List.mem_append_left
    exact List.mem_map_of_mem _ hmem
  · have hc : List.lookup tableId st.columnRuleSets = none := by
      cases hx : List.lookup tableId st.columnRuleSets with
      | none => rfl
      | some v => exact absurd (hidx.1 tableId (by simp [hx])) hmem
    have ht : List.lookup tableId st.tableRuleSets = none := by
      cases hx : List.lookup tableId st.tableRuleSets with
      | none => rfl
      | some v => exact absurd (hidx.2 tableId (by simp [hx])) hmem
    unfold getTableAccess getAllColumnRuleSets getTableDefaultAccess getTableDefaultRuleSet
    rw [hc, ht]
    simp only [Option.getD_none, List.map_nil, List.nil_append, mergePermissions,
      List.map_cons]
    rw [hdoc]
    decide

/-- When every table read verdict is allow, pruning returns each action
unchanged and the bundle passes through whole. -/
lemma filterOutgoingFrom_id_of_allow (st : GAState) (docSession : OptDocSession)
    (rowSnapshots : Option (List (TableDataAction × TableDataAction)))
    (h : ∀ t, (getTableAccess st (sessionInput st docSession) t).read = .allow) :
    ∀ idx docActions,
      filterOutgoingFrom st docSession rowSnapshots idx docActions = .ok docActions := by
  intro idx docActions
  induction docActions generalizing idx with
  | nil => rfl
  | cons a rest ih =>
    have hp : pruneOutgoingDocAction st docSession rowSnapshots a idx = .ok [a] := by
      unfold pruneOutgoingDocAction
      simp [h (getTableId a)]
    rw [filterOutgoingFrom]
    simp only [hp, ih (idx + 1)]
    rfl

/-- C2: for a session with `canReadEverything`, `filterOutgoingDocActions`
returns any bundle unchanged and `filterMetaTables` returns any metadata
map unchanged. -/
theorem canReadEverything_filters_are_identity :
    ∀ (st : GAState) (docSession : OptDocSession),
      RuleTablesIndexed st → canReadEverything st docSession = true →
      (∀ rowSnapshots docActions,
        filterOutgoingDocActions st docSession rowSnapshots docActions = .ok docActions) ∧
      (∀ tables, filterMetaTables st docSession tables = tables) := by
  intro st docSession hidx hread
  constructor
  · intro rowSnapshots docActions
    exact filterOutgoingFrom_id_of_allow st docSession rowSnapshots
      (tableRead_allow_of_canReadEverything st docSession hidx hread) 0 docActions
  · intro tables
    simp [filterMetaTables, hread]

/-- A small concrete metadata map. -/
def metaTables0 : MetaTables :=
  { tables := { tableId := "_grist_Tables", rowIds := [1]
                colValues := [("tableId", [.s "T"])] }
    views := { tableId := "_grist_Views", rowIds := [], colValues := [("name", [])] }
    sections := { tableId := "_grist_Views_section", rowIds := []
                  colValues := [("title", []), ("tableRef", []), ("parentId", [])] }
    fields := { tableId := "_grist_Views_section_field", rowIds := []
                colValues := [("widgetOptions", []), ("filter", []), ("parentId", [])] }
    columns := { tableId := "_grist_Tables_column", rowIds := []
                 colValues := [("label", []), ("colId", []), ("parentId", [])] } }

/-- Witness for C2 at a concrete owner session over the fresh engine. -/
theorem canReadEverything_filters_are_identity_witness :
    canReadEverything st0 sessOwner = true ∧
    filterOutgoingDocActions st0 sessOwner none
      [DocAction.UpdateRecord "T" 1 [("x", CellValue.n 1)]] =
      .ok [DocAction.UpdateRecord "T" 1 [("x", CellValue.n 1)]] ∧
    filterMetaTables st0 sessOwner metaTables0 = metaTables0 := by
  have hidx : RuleTablesIndexed st0 := by
    constructor <;> intro t h <;> simp [st0, initialState] at h
  have h := canReadEverything_filters_are_identity st0 sessOwner hidx (by decide)
  exact ⟨by decide, h.1 none _, h.2 metaTables0⟩

/-! ## Claim C3: fast paths of outgoing-action pruning -/

/-- The column-pruning behavior stated by claim C3 as amended, written from
the spec's words for comparison with the code path: record mutations
carrying a column payload have their read-denied columns stripped and are
dropped entirely when no columns remain; remove-shaped mutations (which
carry no columns) pass through unchanged.  Schema mutations are outside
this claim. -/
def claimColumnPruning (st : GAState) (input : AclMatchInput) (tableId : String) :
    DocAction → Option DocAction
  | .RemoveRecord t r => some (.RemoveRecord t r)
  | .BulkRemoveRecord t rs => some (.BulkRemoveRecord t rs)
  | .AddRecord t r cols =>
    let kept := filterColumnsS cols
      (fun colId => (getColumnAccess st input tableId colId).read ≠ .deny)
    if kept.isEmpty then none else some (.AddRecord t r kept)
  | .UpdateRecord t r cols =>
    let kept := filterColumnsS cols
      (fun colId => (getColumnAccess st input tableId colId).read ≠ .deny)
    if kept.isEmpty then none else some (.UpdateRecord t r kept)
  | .BulkAddRecord t rs cols =>
    let kept := filterColumnsB cols
      (fun colId => (getColumnAccess st input tableId colId).read ≠ .deny)
    if kept.isEmpty then none else some (.BulkAddRecord t rs kept)
  | .BulkUpdateRecord t rs cols =>
    let kept := filterColumnsB cols
      (fun colId => (getColumnAccess st input tableId colId).read ≠ .deny)
    if kept.isEmpty then none else some (.BulkUpdateRecord t rs kept)
  | .ReplaceTableData t rs cols =>
    let kept := filterColumnsB cols
      (fun colId => (getColumnAccess st input tableId colId).read ≠ .deny)
    if kept.isEmpty then none else some (.ReplaceTableData t rs kept)
  | .TableData t rs cols =>
    let kept := filterColumnsB cols
      (fun colId => (getColumnAccess st input tableId colId).read ≠ .deny)
    if kept.isEmpty then none else some (.TableData t rs kept)
  | _ => none

/-- On record-shaped actions, the source's `_pruneColumns` agrees with the
claim's description of column pruning. -/
lemma pruneColumns_claim_eq (st : GAState) (input : AclMatchInput) (tableId : String)
    (a : DocAction) (hschema : isSchemaAction a = false) :
    pruneColumns st input a tableId = .ok (claimColumnPruning st input tableId a) := by
  cases a with
  | RemoveRecord t r => rfl
  | BulkRemoveRecord t rs => rfl
  | AddRecord t r cols => exact (apply_ite Except.ok _ _ _).symm
  | UpdateRecord t r cols => exact (apply_ite Except.ok _ _ _).symm
  | BulkAddRecord t rs cols => exact (apply_ite Except.ok _ _ _).symm
  | BulkUpdateRecord t rs cols => exact (apply_ite Except.ok _ _ _).symm
  | ReplaceTableData t rs cols => exact (apply_ite Except.ok _ _ _).symm
  | TableData t rs cols => exact (apply_ite Except.ok _ _ _).symm
  | AddColumn t c i => simp [isSchemaAction] at hschema
  | RemoveColumn t c => simp [isSchemaAction] at hschema
  | RenameColumn t c n => simp [isSchemaAction] at hschema
  | ModifyColumn t c i => simp [isSchemaAction] at hschema
  | AddTable t c => simp [isSchemaAction] at hschema
  | RemoveTable t => simp [isSchemaAction] at hschema
  | RenameTable t n => simp [isSchemaAction] at hschema

/-- C3 (amended): a deny table read verdict emits nothing; allow emits the
action unchanged; mixedColumns, for record-shaped mutations, strips
read-denied columns (dropping a column-carrying mutation that becomes
empty, passing remove-shaped mutations through). -/
theorem pruneOutgoing_fast_paths :
    ∀ (st : GAState) (docSession : OptDocSession)
      (rowSnapshots : Option (List (TableDataAction × TableDataAction)))
      (a : DocAction) (idx : Nat),
      ((getTableAccess st (sessionInput st docSession) (getTableId a)).read = .deny →
        pruneOutgoingDocAction st docSession rowSnapshots a idx = .ok []) ∧
      ((getTableAccess st (sessionInput st docSession) (getTableId a)).read = .allow →
        pruneOutgoingDocAction st docSession rowSnapshots a idx = .ok [a]) ∧
      ((getTableAccess st (sessionInput st docSession) (getTableId a)).read = .mixedColumns →
        isSchemaAction a = false →
        pruneOutgoingDocAction st docSession rowSnapshots a idx =
          .ok (claimColumnPruning st (sessionInput st docSession) (getTableId a) a).toList) := by
  intro st docSession rowSnapshots a idx
  refine ⟨?_, ?_, ?_⟩
  · intro h
    unfold pruneOutgoingDocAction
    simp [h]
  · intro h
    unfold pruneOutgoingDocAction
    simp [h]
  · intro h hschema
    unfold pruneOutgoingDocAction
    simp [h, pruneColumns_claim_eq st (sessionInput st docSession) (getTableId a) a hschema,
      Except.map]

/-- Counterexample for C3 as stated: under a mixedColumns verdict, an
AddColumn action touching a readable column is not emitted with denied
columns stripped — the pruner raises the NEED_RELOAD error instead. -/
theorem pruneOutgoing_fast_paths_counterexample :
    (getTableAccess stMixedCols (sessionInput stMixedCols sessOwner) "T").read =
      .mixedColumns ∧
    pruneOutgoingDocAction stMixedCols sessOwner none
      (.AddColumn "T" "info" []) 0 = .error (.needReload "document needs reload") :=
  ⟨by decide, rfl⟩

/-- Witness for C3 (amended) at concrete inputs covering all three
verdicts. -/
theorem pruneOutgoing_fast_paths_witness :
    pruneOutgoingDocAction stRowRules sessNone none bulkUpd 0 = .ok [] ∧
    pruneOutgoingDocAction st0 sessViewerBob none bulkUpd 0 = .ok [bulkUpd] ∧
    pruneOutgoingDocAction stMixedCols sessOwner none
      (.BulkAddRecord "T" [1] [("sec", [.n 5]), ("pub", [.n 6])]) 0 =
      .ok [.BulkAddRecord "T" [1] [("pub", [.n 6])]] := by
  refine ⟨?_, ?_, ?_⟩
  · exact (pruneOutgoing_fast_paths stRowRules sessNone none bulkUpd 0).1 (by decide)
  · exact (pruneOutgoing_fast_paths st0 sessViewerBob none bulkUpd 0).2.1 (by decide)
  · rw [(pruneOutgoing_fast_paths stMixedCols sessOwner none
      (.BulkAddRecord "T" [1] [("sec", [.n 5]), ("pub", [.n 6])]) 0).2.2 (by decide) rfl]
    rfl

/-! ## Claim C7: behavior when no rules exist -/

lemma enrichUser_Access (st : GAState) (u : UserInfo) (p : String × UserAttributeRule) :
    (enrichUser st u p).Access = u.Access := by
  simp only [enrichUser]
  split <;> rfl

lemma foldl_enrichUser_Access (st : GAState) :
    ∀ (rules : List (String × UserAttributeRule)) (u : UserInfo),
      (rules.foldl (enrichUser st) u).Access = u.Access := by
  intro rules
  induction rules with
  | nil => intro u; rfl
  | cons p rest ih =>
    intro u
    rw [List.foldl_cons, ih (enrichUser st u p), enrichUser_Access]

/-- User-attribute enrichment never changes the built-in Access field. -/
lemma getUser_Access (st : GAState) (docSession : OptDocSession) :
    (getUser st docSession).Access = docSession.access := by
  unfold getUser
  rw [foldl_enrichUser_Access]
  rfl

/-- With the built-in default rule set, every session with a view role
gets a doc-default read verdict of allow. -/
lemma docDefaultAccess_read_allow (st : GAState) (input : AclMatchInput)
    (hdef : st.defaultRuleSet = DEFAULT_RULE_SET)
    (hacc : input.user.Access = "owners" ∨ input.user.Access = "editors" ∨
      input.user.Access = "viewers") :
    (getDocDefaultAccess st input).read = .allow := by
  rcases hacc with h | h | h <;>
    simp [getDocDefaultAccess, getDocDefaultRuleSet, hdef, DEFAULT_RULE_SET, evaluateRule, h,
      parsePermissions, uniformPermissionSet, emptyPermissionSet, mergePartialPermissions,
      mergePartialPermissionValues, toMixed, toMixedValue]

/-- With no table or column rule sets and the built-in default, every
table read verdict is allow for view-role sessions. -/
lemma getTableAccess_read_allow_noRules (st : GAState) (input : AclMatchInput)
    (tableId : String)
    (hcol : st.columnRuleSets = []) (htab : st.tableRuleSets = [])
    (hdef : st.defaultRuleSet = DEFAULT_RULE_SET)
    (hacc : input.user.Access = "owners" ∨ input.user.Access = "editors" ∨
      input.user.Access = "viewers") :
    (getTableAccess st input tableId).read = .allow := by
  have hdoc := docDefaultAccess_read_allow st input hdef hacc
  unfold getTableAccess getAllColumnRuleSets getTableDefaultAccess getTableDefaultRuleSet
  rw [hcol, htab]
  simp only [List.lookup_nil, Option.getD_none, List.map_nil, List.nil_append,
    mergePermissions, List.map_cons]
  rw [hdoc]
  decide

/-- With no table:column map and the built-in default, every column read
verdict is allow for view-role sessions. -/
lemma getColumnAccess_read_allow_noRules (st : GAState) (input : AclMatchInput)
    (tableId colId : String)
    (hmap : st.tableColumnMap = []) (htab : st.tableRuleSets = [])
    (hdef : st.defaultRuleSet = DEFAULT_RULE_SET)
    (hacc : input.user.Access = "owners" ∨ input.user.Access = "editors" ∨
      input.user.Access = "viewers") :
    (getColumnAccess st input tableId colId).read = .allow := by
  have hdoc := docDefaultAccess_read_allow st input hdef hacc
  unfold getColumnAccess getColumnRuleSet getTableDefaultAccess getTableDefaultRuleSet
  rw [hmap, htab]
  simpa using hdoc

/-- C7 (amended): when no user-authored rule set exists (empty rule
indexes, built-in default rule set), filtering is the identity for every
session whose role can view — `filterOutgoingDocActions` returns the
bundle unchanged and `filterData` leaves table data unchanged.  (As
stated, the claim fails for sessions without view access; see the
counterexample.) -/
theorem noRules_view_filters_are_identity :
    ∀ (st : GAState) (docSession : OptDocSession)
      (rowSnapshots : Option (List (TableDataAction × TableDataAction)))
      (docActions : List DocAction) (data : TableDataAction),
      st.columnRuleSets = [] → st.tableColumnMap = [] → st.tableRuleSets = [] →
      st.defaultRuleSet = DEFAULT_RULE_SET →
      (docSession.access = "owners" ∨ docSession.access = "editors" ∨
        docSession.access = "viewers") →
      filterOutgoingDocActions st docSession rowSnapshots docActions = .ok docActions ∧
      filterData st docSession data = data := by
  intro st docSession rowSnapshots docActions data hcol hmap htab hdef hacc
  have haccu : (sessionInput st docSession).user.Access = "owners" ∨
      (sessionInput st docSession).user.Access = "editors" ∨
      (sessionInput st docSession).user.Access = "viewers" := by
    have h1 : (sessionInput st docSession).user.Access = docSession.access :=
      getUser_Access st docSession
    rw [h1]
    exact hacc
  have hallow : ∀ t, (getTableAccess st (sessionInput st docSession) t).read = .allow :=
    fun t => getTableAccess_read_allow_noRules st (sessionInput st docSession) t
      hcol htab hdef haccu
  constructor
  · exact filterOutgoingFrom_id_of_allow st docSession rowSnapshots hallow 0 docActions
  · have hcols : ∀ c, (getColumnAccess st (sessionInput st docSession)
        data.tableId c).read = .allow :=
      fun c => getColumnAccess_read_allow_noRules st (sessionInput st docSession)
        data.tableId c hmap htab hdef haccu
    have hfilter : filterColumnsB data.colValues (fun colId =>
        (getColumnAccess st (sessionInput st docSession) data.tableId colId).read ≠ .deny) =
        data.colValues := by
      unfold filterColumnsB
      apply List.filter_eq_self.mpr
      intro p _
      simp [hcols p.1]
    have hallowS : (getTableAccessOfSession st docSession data.tableId).read = .allow :=
      hallow data.tableId
    simp only [filterData]
    rw [hallowS]
    simp only [reduceCtorEq, if_false, ite_false]
    rw [hfilter]

/-- Counterexample for C7 as stated: with no rules (`haveRules` false), a
session without view access does not see the bundle unchanged — the
filters remove everything. -/
theorem noRules_filters_counterexample :
    st0.haveRules = false ∧
    filterOutgoingDocActions st0 sessNone none
      [DocAction.UpdateRecord "T" 1 [("x", CellValue.n 1)]] = .ok [] ∧
    filterData st0 sessNone
      { tableId := "T", rowIds := [1], colValues := [("x", [CellValue.n 1])] } =
      { tableId := "T", rowIds := [1], colValues := [] } :=
  ⟨rfl, rfl, rfl⟩

/-- Witness for C7 (amended) at a concrete viewer session. -/
theorem noRules_view_filters_are_identity_witness :
    filterOutgoingDocActions st0 sessViewerBob none [bulkUpd] = .ok [bulkUpd] ∧
    filterData st0 sessViewerBob
      { tableId := "T", rowIds := [1], colValues := [("x", [CellValue.n 1])] } =
      { tableId := "T", rowIds := [1], colValues := [("x", [CellValue.n 1])] } :=
  noRules_view_filters_are_identity st0 sessViewerBob none [bulkUpd]
    { tableId := "T", rowIds := [1], colValues := [("x", [CellValue.n 1])] }
    rfl rfl rfl rfl (Or.inr (Or.inr rfl))

/-! ## Claim C5: configuration errors from update -/

lemma lookup_isSome_iff_mem_keys [BEq κ] [LawfulBEq κ] (l : List (κ × α)) (k : κ) :
    (List.lookup k l).isSome = true ↔ k ∈ l.map Prod.fst := by
  induction l with
  | nil => simp
  | cons p rest ih =>
    obtain ⟨k1, v1⟩ := p
    by_cases h : k = k1
    · subst h
      simp [List.lookup]
    · have hb : (k == k1) = false := by simp [h]
      simp only [List.lookup, hb, List.map_cons, List.mem_cons]
      rw [ih]
      simp [h]

lemma lookup_alistSet_self_isSome [BEq κ] [LawfulBEq κ] (l : List (κ × α)) (k : κ) (v : α) :
    (List.lookup k (alistSet l k v)).isSome = true := by
  induction l with
  | nil => simp [alistSet, List.lookup]
  | cons p rest ih =>
    obtain ⟨k1, v1⟩ := p
    unfold alistSet
    by_cases h : k1 = k
    · subst h
      simp [List.lookup]
    · have hb : (k1 == k) = false := by simp [h]
      have hb2 : (k == k1) = false := by simp [Ne.symm h]
      simp only [hb, Bool.false_eq_true, if_false, List.lookup, hb2]
      exact ih

lemma lookup_alistSet_mono [BEq κ] [LawfulBEq κ] (l : List (κ × α)) (k : κ) (v : α)
    (k' : κ) (h : (List.lookup k' l).isSome = true) :
    (List.lookup k' (alistSet l k v)).isSome = true := by
  induction l with
  | nil => simp [List.lookup] at h
  | cons p rest ih =>
    obtain ⟨k1, v1⟩ := p
    unfold alistSet
    by_cases hk : k1 = k
    · subst hk
      by_cases hk' : k' = k1
      · subst hk'
        simp [List.lookup]
      · have hb : (k' == k1) = false := by simp [hk']
        simp only [List.lookup, hb] at h
        simp only [beq_self_eq_true, if_true, List.lookup, hb]
        exact h
    · have hb : (k1 == k) = false := by simp [hk]
      by_cases hk' : k' = k1
      · subst hk'
        simp [hb, List.lookup]
      · have hb2 : (k' == k1) = false := by simp [hk']
        simp only [List.lookup, hb2] at h
        simp only [hb, Bool.false_eq_true, if_false, List.lookup, hb2]
        exact ih h

lemma alistSet_keys_subset [BEq κ] [LawfulBEq κ] (l : List (κ × α)) (k : κ) (v : α) :
    ∀ k', k' ∈ (alistSet l k v).map Prod.fst → k' ∈ l.map Prod.fst ∨ k' = k := by
  induction l with
  | nil => simp [alistSet]
  | cons p rest ih =>
    obtain ⟨k1, v1⟩ := p
    intro k'
    unfold alistSet
    by_cases hk : k1 = k
    · subst hk
      simp only [beq_self_eq_true, if_true, List.map_cons, List.mem_cons]
      tauto
    · have hb : (k1 == k) = false := by simp [hk]
      simp only [hb, Bool.false_eq_true, if_false, List.map_cons, List.mem_cons]
      intro h
      rcases h with h | h
      · exact Or.inl (Or.inl h)
      · rcases ih k' h with h' | h'
        · exact Or.inl (Or.inr h')
        · exact Or.inr h'

lemma alistSet_keys_nodup [BEq κ] [LawfulBEq κ] (l : List (κ × α)) (k : κ) (v : α)
    (h : (l.map Prod.fst).Nodup) : ((alistSet l k v).map Prod.fst).Nodup := by
  induction l with
  | nil => simp [alistSet]
  | cons p rest ih =>
    obtain ⟨k1, v1⟩ := p
    simp only [List.map_cons, List.nodup_cons] at h
    unfold alistSet
    by_cases hk : k1 = k
    · subst hk
      simp only [beq_self_eq_true, if_true, List.map_cons, List.nodup_cons]
      exact h
    · have hb : (k1 == k) = false := by simp [hk]
      simp only [hb, Bool.false_eq_true, if_false, List.map_cons, List.nodup_cons]
      refine ⟨fun hmem => ?_, ih h.2⟩
      rcases alistSet_keys_subset rest k v k1 hmem with h' | h'
      · exact h.1 h'
      · exact hk h'

lemma alistSet_forall [BEq κ] [LawfulBEq κ] {P : κ × α → Prop} (l : List (κ × α))
    (k : κ) (v : α) (hl : ∀ p ∈ l, P p) (hv : P (k, v)) :
    ∀ p ∈ alistSet l k v, P p := by
  induction l with
  | nil =>
    intro p hp
    simp only [alistSet, List.mem_singleton] at hp
    rw [hp]
    exact hv
  | cons q rest ih =>
    obtain ⟨k1, v1⟩ := q
    intro p hp
    unfold alistSet at hp
    by_cases hk : k1 = k
    · subst hk
      simp only [beq_self_eq_true, if_true, List.mem_cons] at hp
      rcases hp with hp | hp
      · rw [hp]
        exact hv
      · exact hl p (List.mem_cons_of_mem _ hp)
    · have hb : (k1 == k) = false := by simp [hk]
      simp only [hb, Bool.false_eq_true, if_false, List.mem_cons] at hp
      rcases hp with hp | hp
      · exact hl p (by simp [hp])
      · exact ih (fun r hr => hl r (List.mem_cons_of_mem _ hr)) p hp

/-- The user-attribute map built by `update` has unique keys, each entry
stored under its own name. -/
lemma userAttributeMap_invariant :
    ∀ (uas : List UserAttributeRule) (m : List (String × UserAttributeRule)),
      (m.map Prod.fst).Nodup → (∀ p ∈ m, p.2.name = p.1) →
      ((uas.foldl (fun m (userAttr : UserAttributeRule) =>
          alistSet m userAttr.name userAttr) m).map Prod.fst).Nodup ∧
      (∀ p ∈ uas.foldl (fun m (userAttr : UserAttributeRule) =>
          alistSet m userAttr.name userAttr) m, p.2.name = p.1) := by
  intro uas
  induction uas with
  | nil => intro m h1 h2; exact ⟨h1, h2⟩
  | cons ua rest ih =>
    intro m h1 h2
    rw [List.foldl_cons]
    exact ih (alistSet m ua.name ua) (alistSet_keys_nodup m ua.name ua h1)
      (alistSet_forall m ua.name ua h2 rfl)

/-- Carrying a property of the attribute rules through the name map built
by `update`: every entry of the map is one of the input rules. -/
lemma userAttributeMap_forall (Q : UserAttributeRule → Prop) :
    ∀ (uas : List UserAttributeRule) (m : List (String × UserAttributeRule)),
      (∀ p ∈ m, Q p.2) → (∀ ua ∈ uas, Q ua) →
      ∀ p ∈ uas.foldl (fun m (userAttr : UserAttributeRule) =>
          alistSet m userAttr.name userAttr) m, Q p.2 := by
  intro uas
  induction uas with
  | nil =>
    intro m hm _
    simpa using hm
  | cons ua rest ih =>
    intro m hm huas
    rw [List.foldl_cons]
    exact ih (alistSet m ua.name ua)
      (alistSet_forall m ua.name ua hm (huas ua (List.mem_cons_self ua rest)))
      (fun r hr => huas r (List.mem_cons_of_mem ua hr))

/-- The characteristic-table reload never raises the duplicate-name error
when the rule map has unique keys and entries named by their keys (which
`update` guarantees): duplicate user-attribute names are collapsed by the
map before the check can see them.  When moreover every rule's lookup
column exists in its fetched table, the reload completes without error. -/
lemma updateCharacteristicTables_ok (fetch : String → TableDataAction) :
    ∀ (rules : List (String × UserAttributeRule))
      (acc : List (String × CharacteristicTable)),
      (∀ p ∈ rules, p.2.name = p.1) →
      (acc.map Prod.fst ++ rules.map Prod.fst).Nodup →
      (∀ p ∈ rules,
        (List.lookup p.2.lookupColId (fetch p.2.tableId).colValues).isSome = true) →
      ∃ out, List.foldlM (fun acc (p : String × UserAttributeRule) =>
        let clause := p.2
        if (List.lookup clause.name acc).isSome then
          Except.error
            ("User attribute " ++ clause.name ++ " ignored: duplicate name", acc)
        else
          match makeCharacteristicTable clause (fetch clause.tableId) with
          | .error e => .error (e, acc)
          | .ok table => .ok (acc ++ [(clause.name, table)]))
        acc rules = .ok out := by
  intro rules
  induction rules with
  | nil => exact fun acc _ _ _ => ⟨acc, rfl⟩
  | cons p rest ih =>
    intro acc hname hnodup hcols
    have hpname : p.2.name = p.1 := hname p (List.mem_cons_self p rest)
    have hnotmem : p.1 ∉ acc.map Prod.fst := by
      intro hmem
      have := (List.nodup_append.mp hnodup).2.2
      exact this hmem (by simp)
    have hlook : (List.lookup p.2.name acc).isSome = false := by
      rw [hpname]
      cases hb : (List.lookup p.1 acc).isSome with
      | false => rfl
      | true => exact absurd ((lookup_isSome_iff_mem_keys acc p.1).mp hb) hnotmem
    obtain ⟨vals, hvals⟩ := Option.isSome_iff_exists.mp
      (hcols p (List.mem_cons_self p rest))
    have hkeys : ∀ (tbl : CharacteristicTable),
        ((acc ++ [(p.2.name, tbl)]).map Prod.fst ++ rest.map Prod.fst) =
          (acc.map Prod.fst ++ p.1 :: rest.map Prod.fst) := by
      intro tbl
      simp [hpname]
    rw [List.foldlM_cons]
    simp only [hlook, Bool.false_eq_true, if_false, makeCharacteristicTable, hvals]
    apply ih
    · exact fun q hq => hname q (List.mem_cons_of_mem p hq)
    · rw [hkeys]
      exact hnodup
    · exact fun q hq => hcols q (List.mem_cons_of_mem p hq)

/-- Any rule set in the list that is doc-scoped but lists specific columns
makes the classification loop raise. -/
lemma buildRuleMaps_error_docCols :
    ∀ (ruleSets : List RuleSet) colRS tcm trs dflt (rs : RuleSet),
      rs ∈ ruleSets → rs.tableId = "*" → rs.colIds ≠ none →
      ∃ e, buildRuleMaps ruleSets colRS tcm trs dflt = .error e := by
  intro ruleSets
  induction ruleSets with
  | nil => simp
  | cons head rest ih =>
    intro colRS tcm trs dflt rs hmem h1 h2
    rcases List.mem_cons.mp hmem with heq | hmem'
    · subst heq
      unfold buildRuleMaps
      rw [if_pos h1]
      cases hc : rs.colIds with
      | none => exact absurd hc h2
      | some cols => exact ⟨_, rfl⟩
    · unfold buildRuleMaps
      by_cases hh : head.tableId = "*"
      · rw [if_pos hh]
        cases hcl : head.colIds with
        | none => exact ih _ _ _ _ rs hmem' h1 h2
        | some _ => exact ⟨_, rfl⟩
      · rw [if_neg hh]
        cases hcl : head.colIds with
        | none =>
          by_cases hd : (List.lookup head.tableId trs).isSome = true
          · rw [if_pos hd]
            exact ⟨_, rfl⟩
          · rw [if_neg hd]
            exact ih _ _ _ _ rs hmem' h1 h2
        | some cols => exact ih _ _ _ _ rs hmem' h1 h2

/-- Once a table already has a default rule set in the index, a later
default rule set for the same table makes the classification loop raise. -/
lemma buildRuleMaps_error_later :
    ∀ (l2 : List RuleSet) (rs2 : RuleSet) (l3 : List RuleSet) colRS tcm trs dflt,
      (List.lookup rs2.tableId trs).isSome = true → rs2.tableId ≠ "*" →
      rs2.colIds = none →
      ∃ e, buildRuleMaps (l2 ++ rs2 :: l3) colRS tcm trs dflt = .error e := by
  intro l2
  induction l2 with
  | nil =>
    intro rs2 l3 colRS tcm trs dflt hlook h1 h2
    rw [List.nil_append]
    unfold buildRuleMaps
    rw [if_neg h1]
    cases hc : rs2.colIds with
    | none =>
      rw [if_pos hlook]
      exact ⟨_, rfl⟩
    | some cols => exact absurd hc (by simp [h2])
  | cons head rest ih =>
    intro rs2 l3 colRS tcm trs dflt hlook h1 h2
    rw [List.cons_append]
    unfold buildRuleMaps
    by_cases hh : head.tableId = "*"
    · rw [if_pos hh]
      cases hcl : head.colIds with
      | none => exact ih rs2 l3 _ _ _ _ hlook h1 h2
      | some _ => exact ⟨_, rfl⟩
    · rw [if_neg hh]
      cases hcl : head.colIds with
      | none =>
        by_cases hd : (List.lookup head.tableId trs).isSome = true
        · rw [if_pos hd]
          exact ⟨_, rfl⟩
        · rw [if_neg hd]
          exact ih rs2 l3 _ _ _ _
            (lookup_alistSet_mono trs head.tableId head rs2.tableId hlook) h1 h2
      | some cols => exact ih rs2 l3 _ _ _ _ hlook h1 h2


lemma buildRuleMaps_cons (ruleSet : RuleSet) (rest : List RuleSet)
    (colRS : List (String × List RuleSet)) (tcm trs : List (String × RuleSet))
    (dflt : RuleSet) :
    buildRuleMaps (ruleSet :: rest) colRS tcm trs dflt =
      (if ruleSet.tableId = "*" then
        match ruleSet.colIds with
        | none => buildRuleMaps rest colRS tcm trs
            { ruleSet with body := ruleSet.body ++ DEFAULT_RULE_SET.body
                           defaultPermissions := DEFAULT_RULE_SET.defaultPermissions }
        | some _ => .error ("Invalid rule for tableId " ++ ruleSet.tableId)
      else
        match ruleSet.colIds with
        | none =>
          if (List.lookup ruleSet.tableId trs).isSome then
            .error ("Invalid duplicate default rule for " ++ ruleSet.tableId)
          else buildRuleMaps rest colRS tcm (alistSet trs ruleSet.tableId ruleSet) dflt
        | some colIds =>
          buildRuleMaps rest (alistPush colRS ruleSet.tableId ruleSet)
            (colIds.foldl (fun m colId =>
              alistSet m (ruleSet.tableId ++ ":" ++ colId) ruleSet) tcm)
            trs dflt) := rfl

/-- A duplicate table-default pair anywhere in the list makes the
classification loop raise. -/
lemma buildRuleMaps_error_dupDefault :
    ∀ (l1 : List RuleSet) (rs1 : RuleSet) (l2 : List RuleSet) (rs2 : RuleSet)
      (l3 : List RuleSet) colRS tcm trs dflt,
      rs1.tableId ≠ "*" → rs1.colIds = none → rs2.tableId = rs1.tableId →
      rs2.colIds = none →
      ∃ e, buildRuleMaps (l1 ++ rs1 :: (l2 ++ rs2 :: l3)) colRS tcm trs dflt = .error e := by
  intro l1
  induction l1 with
  | nil =>
    intro rs1 l2 rs2 l3 colRS tcm trs dflt h1 h2 h3 h4
    rw [List.nil_append, buildRuleMaps_cons]
    rw [if_neg h1]
    cases hc : rs1.colIds with
    | none =>
      by_cases hd : (List.lookup rs1.tableId trs).isSome = true
      · rw [if_pos hd]
        exact ⟨_, rfl⟩
      · rw [if_neg hd]
        refine buildRuleMaps_error_later l2 rs2 l3 _ _ _ _ ?_
          (by simpa [h3] using h1) h4
        rw [h3]
        exact lookup_alistSet_self_isSome trs rs1.tableId rs1
    | some cols => exact absurd hc (by simp [h2])
  | cons head rest ih =>
    intro rs1 l2 rs2 l3 colRS tcm trs dflt h1 h2 h3 h4
    rw [List.cons_append, buildRuleMaps_cons]
    by_cases hh : head.tableId = "*"
    · rw [if_pos hh]
      cases hcl : head.colIds with
      | none => exact ih rs1 l2 rs2 l3 _ _ _ _ h1 h2 h3 h4
      | some _ => exact ⟨_, rfl⟩
    · rw [if_neg hh]
      cases hcl : head.colIds with
      | none =>
        by_cases hd : (List.lookup head.tableId trs).isSome = true
        · rw [if_pos hd]
          exact ⟨_, rfl⟩
        · rw [if_neg hd]
          exact ih rs1 l2 rs2 l3 _ _ _ _ h1 h2 h3 h4
      | some cols => exact ih rs1 l2 rs2 l3 _ _ _ _ h1 h2 h3 h4

/-- C5 (amended): the two ill-formed rule scopes (doc-level with specific
columns; duplicate table default) raise synchronously from `update`, and
on such an error the rule-set indexes, default rule set, user-attribute
rules and characteristic tables keep their previous values — but the
`haveRules` flag has already been reassigned from the new rule list and is
not rolled back; a duplicate user-attribute name is never itself an error:
the name map collapses duplicates (later rules overwrite earlier ones)
before the duplicate check can see them, and with a valid rule list
`update` completes without error whenever each surviving rule's lookup
column exists in its fetched table (a missing lookup column raises a
TypeError from the reload, a failure outside this claim's error list). -/
theorem update_config_errors :
    ∀ (st : GAState) (ruleSets : List RuleSet)
      (userAttributes : List UserAttributeRule) (fetch : String → TableDataAction),
      ((∃ e, buildRuleMaps ruleSets [] [] [] DEFAULT_RULE_SET = .error e) →
        (update st ruleSets userAttributes fetch).2.isSome = true ∧
        (update st ruleSets userAttributes fetch).1 =
          { st with haveRules := decide (0 < ruleSets.length) }) ∧
      (∀ rs ∈ ruleSets, rs.tableId = "*" → rs.colIds ≠ none →
        ∃ e, buildRuleMaps ruleSets [] [] [] DEFAULT_RULE_SET = .error e) ∧
      (∀ (l1 : List RuleSet) (rs1 : RuleSet) (l2 : List RuleSet) (rs2 : RuleSet)
        (l3 : List RuleSet),
        ruleSets = l1 ++ rs1 :: (l2 ++ rs2 :: l3) → rs1.tableId ≠ "*" →
        rs1.colIds = none → rs2.tableId = rs1.tableId → rs2.colIds = none →
        ∃ e, buildRuleMaps ruleSets [] [] [] DEFAULT_RULE_SET = .error e) ∧
      ((∀ ua ∈ userAttributes,
          (List.lookup ua.lookupColId (fetch ua.tableId).colValues).isSome = true) →
        (∃ r, buildRuleMaps ruleSets [] [] [] DEFAULT_RULE_SET = .ok r) →
        (update st ruleSets userAttributes fetch).2 = none) := by
  intro st ruleSets userAttributes fetch
  refine ⟨?_, ?_, ?_, ?_⟩
  · rintro ⟨e, he⟩
    unfold update
    rw [he]
    exact ⟨rfl, rfl⟩
  · intro rs hmem h1 h2
    exact buildRuleMaps_error_docCols ruleSets [] [] [] DEFAULT_RULE_SET rs hmem h1 h2
  · intro l1 rs1 l2 rs2 l3 heq h1 h2 h3 h4
    rw [heq]
    exact buildRuleMaps_error_dupDefault l1 rs1 l2 rs2 l3 [] [] [] DEFAULT_RULE_SET
      h1 h2 h3 h4
  · rintro hcols ⟨r, hr⟩
    obtain ⟨colRuleSets, tableColMap, tableRuleSets, defaultRuleSet⟩ := r
    have hinv := userAttributeMap_invariant userAttributes [] (by simp) (by simp)
    have hmapcols := userAttributeMap_forall
      (fun ua => (List.lookup ua.lookupColId (fetch ua.tableId).colValues).isSome = true)
      userAttributes [] (by simp) hcols
    obtain ⟨out, hout⟩ := updateCharacteristicTables_ok fetch
      (userAttributes.foldl (fun m (userAttr : UserAttributeRule) =>
        alistSet m userAttr.name userAttr) []) [] hinv.2 (by simpa using hinv.1)
      hmapcols
    unfold update
    rw [hr]
    dsimp only
    unfold updateCharacteristicTables
    rw [hout]

/-- Counterexample for C5 as stated: a doc-level rule set with specific
columns raises from `update`, but the engine's `haveRules` flag has
already flipped (the old Rule Store is not fully in force); and a
duplicate user-attribute name raises no error at all (the fetched tables
carry the lookup columns, so nothing else can fail either). -/
theorem update_config_errors_counterexample :
    st0.haveRules = false ∧
    (update st0 [{ tableId := "*", colIds := some ["a"], body := []
                   defaultPermissions := emptyPermissionSet }] [] fetch0).2.isSome = true ∧
    (update st0 [{ tableId := "*", colIds := some ["a"], body := []
                   defaultPermissions := emptyPermissionSet }] [] fetch0).1.haveRules = true ∧
    (update st0 [] [⟨"dup", "S", "c", "Email"⟩, ⟨"dup", "S2", "c2", "Email"⟩]
      fetchS).2 = none :=
  ⟨rfl, rfl, rfl, rfl⟩

/-- Witness for C5 (amended) at concrete inputs: the failed update keeps
the indexes and characteristic tables, and a valid rule list with
duplicate attribute names (whose fetched tables carry the lookup columns)
completes without error. -/
theorem update_config_errors_witness :
    (update st0 [{ tableId := "*", colIds := some ["a"], body := []
                   defaultPermissions := emptyPermissionSet }] [] fetch0).1.columnRuleSets =
      st0.columnRuleSets ∧
    (update st0 [{ tableId := "*", colIds := some ["a"], body := []
                   defaultPermissions := emptyPermissionSet }] [] fetch0).1.characteristicTables =
      st0.characteristicTables ∧
    (update st0 [tRuleSet] [⟨"dup", "S", "c", "Email"⟩, ⟨"dup", "S2", "c2", "Email"⟩]
      fetchS).2 = none := by
  obtain ⟨hA, hB, _, _⟩ := update_config_errors st0
    [{ tableId := "*", colIds := some ["a"], body := []
       defaultPermissions := emptyPermissionSet }] [] fetch0
  have herr := hB _ (List.mem_cons_self _ _) rfl (by simp)
  have h1 := (hA herr).2
  refine ⟨by rw [h1], by rw [h1], ?_⟩
  exact (update_config_errors st0 [tRuleSet]
    [⟨"dup", "S", "c", "Email"⟩, ⟨"dup", "S2", "c2", "Email"⟩] fetchS).2.2.2
    (by decide) ⟨_, rfl⟩


/-! ## Claim C8: filterMetaTables is idempotent -/

lemma censorValsFrom_idem (rowIds ids : List Nat) (c : CellValue) :
    ∀ (i : Nat) (vs : List CellValue),
      censorValsFrom rowIds ids c i (censorValsFrom rowIds ids c i vs) =
        censorValsFrom rowIds ids c i vs := by
  intro i vs
  induction vs generalizing i with
  | nil => rfl
  | cons v rest ih =>
    cases h : rowIds[i]? with
    | none => simp [censorValsFrom, h, ih]
    | some r =>
      by_cases hc : r ∈ ids
      · simp [censorValsFrom, h, hc, ih]
      · simp [censorValsFrom, h, hc, ih]

lemma censorTableAction_idem (t : TableDataAction) (ids : List Nat)
    (colOps : List (String × CellValue)) :
    censorTableAction (censorTableAction t ids colOps) ids colOps =
      censorTableAction t ids colOps := by
  unfold censorTableAction
  simp only [List.map_map]
  congr 1
  apply List.map_congr_left
  intro p _
  cases hl : List.lookup p.1 colOps with
  | none => simp [hl]
  | some c => simp [hl, censorValsFrom_idem]

/-- C8: `filterMetaTables` is idempotent: the censored-object sets depend
only on the session and the engine's own document data, not on the map
being censored, and every censor overwrite is a constant assignment. -/
theorem filterMetaTables_idempotent :
    ∀ (st : GAState) (docSession : OptDocSession) (tables : MetaTables),
      filterMetaTables st docSession (filterMetaTables st docSession tables) =
        filterMetaTables st docSession tables := by
  intro st docSession tables
  by_cases h : canReadEverything st docSession = true
  · simp [filterMetaTables, h]
  · have hb : canReadEverything st docSession = false := by
      cases hx : canReadEverything st docSession with
      | false => rfl
      | true => exact absurd hx h
    unfold filterMetaTables
    simp only [hb, Bool.false_eq_true, if_false]
    congr 1 <;> apply censorTableAction_idem

/-! ## Claim C1: row-transition planning (slow path) -/

/-- C1 (code bug): at the failing input, a BulkUpdateRecord whose first
listed row is forbidden both before and after, the forbidden row 1 is
correctly computed as forbidden, but `_removeRows` fails to strip it: its
index mask `rowIds.has(id) && idx || -1` collapses index 0 to -1, so the
first row of a bulk action is never removed.  The leftover forbidden row
then trips the planner's own "Unexpected row removal" guard inside
`_filterRowsAndCells`, and the whole pruning raises instead of dropping
the row.  The last conjunct shows the identical removal succeeds when the
forbidden row is not at index 0. -/
theorem pruneRows_first_bulk_row_not_dropped :
    getForbiddenRows stRowRules sessViewerBob snapT [1, 2] = [1] ∧
    removeRows bulkUpd [1] = some bulkUpd ∧
    pruneRows stRowRules sessViewerBob (some [(snapT, snapT)]) bulkUpd 0 =
      .error (.internalErr "Unexpected row removal") ∧
    removeRows (DocAction.BulkUpdateRecord "T" [3, 1, 2] [("x", [.n 0, .n 10, .n 20])])
      [1] = some (.BulkUpdateRecord "T" [3, 2] [("x", [.n 0, .n 20])]) :=
  ⟨rfl, rfl, rfl, rfl⟩

end Grist
